import Mathlib

/-!
# Verification of the Anony session-state engine

This file gives a shallow embedding of the peer-pairing / session-state
engine of the Anony Telegram-bot repository and proves (or refutes)
properties of its operations.

The SQLite `users` table is modelled as a list of rows.  Column affinities
follow the schema in `telegram_db_manager.py`
(`USER_ID INTEGER PRIMARY KEY, PEER_ID TEXT, STATUS TEXT, TIMER INTEGER,
OTP TEXT, OTP_EXP DATETIME, ANONY_NAME TEXT`): the `PEER_ID` column has
TEXT affinity, so integers written into it are stored as their decimal
rendering, while text values used to look up the INTEGER `USER_ID` column
are coerced to a number when they look numeric (and match nothing
otherwise).  `NULL` is modelled by `Option.none` and Python truthiness of
a nullable text value by `truthy` below.

Randomness (OTP values, padding digits, `random.choice`) is made explicit:
each operation takes the random draws as parameters.
-/

namespace Anony

/-- One row of the `users` table (the columns the session engine touches). -/
structure Row where
  user_id : Nat
  peer_id : Option String
  status : String
  anony_name : String
  otp : String
  otp_exp : String
  timer : Nat
  deriving Repr, DecidableEq

/-- The `users` table. -/
abbrev State := List Row

/-- Python truthiness of a nullable TEXT column value: `NULL` and the
empty string are falsy. -/
def truthy : Option String → Bool
  | none => false
  | some s => !s.isEmpty

/-- Python's `str.strip()`: drop whitespace from both ends. -/
def pyStrip (s : String) : String :=
  String.mk (((s.data.dropWhile Char.isWhitespace).reverse.dropWhile Char.isWhitespace).reverse)

/-- `SELECT ... WHERE USER_ID = uid` (first matching row). -/
def getRow (s : State) (uid : Nat) : Option Row :=
  s.find? (fun r => r.user_id == uid)

/-- `UPDATE ... WHERE USER_ID = uid` applying `f` to every matching row. -/
def setRow (s : State) (uid : Nat) (f : Row → Row) : State :=
  s.map (fun r => if r.user_id == uid then f r else r)

def statusOf (s : State) (uid : Nat) : Option String :=
  (getRow s uid).map Row.status

def peerOf (s : State) (uid : Nat) : Option (Option String) :=
  (getRow s uid).map Row.peer_id

def otpOf (s : State) (uid : Nat) : Option String :=
  (getRow s uid).map Row.otp

/-! ## Decimal rendering of integers

`natStr` models Python's `str(int)` and SQLite's INTEGER→TEXT coercion;
`sqlNat?` models the TEXT→INTEGER coercion applied when a text value is
compared against the INTEGER `USER_ID` column. -/

/-- Digit characters of `n`, most significant first; the first argument is
fuel (any value `≥ n` gives the digits of `n`), so the definition is
structurally recursive and reduces in the kernel. -/
def natStrAux : Nat → Nat → List Char
  | _, 0 => []
  | 0, _ + 1 => []
  | fuel + 1, n + 1 => natStrAux fuel ((n + 1) / 10) ++ [Nat.digitChar ((n + 1) % 10)]

/-- Decimal rendering of a natural number (most significant digit first). -/
def natStr (n : Nat) : String :=
  if n = 0 then "0" else String.mk (natStrAux n n)

/-- Numeric coercion of a TEXT value for comparison with an INTEGER
column: all-digit strings convert to their value, others match nothing. -/
def sqlNat? (s : String) : Option Nat :=
  if s.data ≠ [] ∧ s.data.all (fun c => c.isDigit) then
    some (s.data.foldl (fun n c => n * 10 + (c.toNat - 48)) 0)
  else none

theorem natStrAux_eq : ∀ (fuel n : Nat), n ≤ fuel →
    natStrAux fuel n = (Nat.digits 10 n).reverse.map Nat.digitChar
  | _, 0, _ => by simp [natStrAux]
  | 0, m + 1, h => by omega
  | fuel + 1, m + 1, h => by
    rw [natStrAux]
    have hq : (m + 1) / 10 ≤ fuel := by omega
    rw [natStrAux_eq fuel ((m + 1) / 10) hq]
    rw [Nat.digits_def' (b := 10) (by norm_num) (Nat.succ_pos m)]
    simp

/-- `natStr` rendered through `Nat.digits`. -/
theorem natStr_eq_digits (n : Nat) :
    natStr n = if n = 0 then "0" else String.mk ((Nat.digits 10 n).reverse.map Nat.digitChar) := by
  unfold natStr
  by_cases h : n = 0
  · simp [h]
  · rw [if_neg h, if_neg h, natStrAux_eq n n (le_refl n)]

theorem natStr_ne_empty (n : Nat) : natStr n ≠ "" := by
  rw [natStr_eq_digits]
  split
  · intro h; exact absurd (congrArg String.data h) (by simp)
  · intro h
    have hd : Nat.digits 10 n ≠ [] := Nat.digits_ne_nil_iff_ne_zero.mpr (by assumption)
    have : ((Nat.digits 10 n).reverse.map Nat.digitChar) = [] := congrArg String.data h
    simp at this
    exact hd this

theorem digitChar_inj {a b : Nat} (ha : a < 10) (hb : b < 10)
    (h : Nat.digitChar a = Nat.digitChar b) : a = b := by
  interval_cases a <;> interval_cases b <;> simp_all [Nat.digitChar]

theorem map_digitChar_inj : ∀ (xs ys : List Nat), (∀ x ∈ xs, x < 10) → (∀ y ∈ ys, y < 10) →
    xs.map Nat.digitChar = ys.map Nat.digitChar → xs = ys
  | [], [], _, _, _ => rfl
  | [], _ :: _, _, _, h => by simp at h
  | _ :: _, [], _, _, h => by simp at h
  | x :: xs, y :: ys, hx, hy, h => by
    simp only [List.map_cons, List.cons.injEq] at h
    have hxy : x = y := digitChar_inj (hx x (by simp)) (hy y (by simp)) h.1
    have := map_digitChar_inj xs ys (fun z hz => hx z (by simp [hz]))
      (fun z hz => hy z (by simp [hz])) h.2
    rw [hxy, this]

theorem natStr_inj {a b : Nat} (h : natStr a = natStr b) : a = b := by
  rw [natStr_eq_digits, natStr_eq_digits] at h
  have h' := congrArg String.data h
  by_cases ha : a = 0 <;> by_cases hb : b = 0
  · omega
  · exfalso
    simp only [ha, if_pos, if_neg hb] at h'
    have hd : Nat.digits 10 b ≠ [] := Nat.digits_ne_nil_iff_ne_zero.mpr hb
    have hlen := congrArg List.length h'
    simp at hlen
    obtain ⟨d, hdeq⟩ : ∃ d, Nat.digits 10 b = [d] := by
      cases hEq : Nat.digits 10 b with
      | nil => exact absurd hEq hd
      | cons x xs =>
        cases xs with
        | nil => exact ⟨x, rfl⟩
        | cons y ys => rw [hEq] at hlen; simp at hlen
    rw [hdeq] at h'
    simp at h'
    have hdlt : d < 10 := Nat.digits_lt_base (by norm_num) (by rw [hdeq]; simp)
    have h0 : (0 : Nat) = d := digitChar_inj (by norm_num) hdlt (by simpa using h')
    have hb' : b = Nat.ofDigits 10 [d] := by rw [← hdeq, Nat.ofDigits_digits]
    simp [Nat.ofDigits] at hb'
    omega
  · exfalso
    simp only [hb, if_pos, if_neg ha] at h'
    have hd : Nat.digits 10 a ≠ [] := Nat.digits_ne_nil_iff_ne_zero.mpr ha
    have hlen := congrArg List.length h'
    simp at hlen
    obtain ⟨d, hdeq⟩ : ∃ d, Nat.digits 10 a = [d] := by
      cases hEq : Nat.digits 10 a with
      | nil => exact absurd hEq hd
      | cons x xs =>
        cases xs with
        | nil => exact ⟨x, rfl⟩
        | cons y ys => rw [hEq] at hlen; simp at hlen
    rw [hdeq] at h'
    simp at h'
    have hdlt : d < 10 := Nat.digits_lt_base (by norm_num) (by rw [hdeq]; simp)
    have h0 : d = 0 := digitChar_inj hdlt (by norm_num) (by simpa using h')
    have ha' : a = Nat.ofDigits 10 [d] := by rw [← hdeq, Nat.ofDigits_digits]
    simp [Nat.ofDigits] at ha'
    omega
  · simp only [if_neg ha, if_neg hb] at h'
    have hda : ∀ d ∈ Nat.digits 10 a, d < 10 := fun d hd => Nat.digits_lt_base (by norm_num) hd
    have hdb : ∀ d ∈ Nat.digits 10 b, d < 10 := fun d hd => Nat.digits_lt_base (by norm_num) hd
    have hmap : (Nat.digits 10 a).reverse.map Nat.digitChar
        = (Nat.digits 10 b).reverse.map Nat.digitChar := by simpa using h'
    have hrev : (Nat.digits 10 a).reverse = (Nat.digits 10 b).reverse :=
      map_digitChar_inj _ _ (fun x hx => hda x (by simpa using hx))
        (fun y hy => hdb y (by simpa using hy)) hmap
    have hdig : Nat.digits 10 a = Nat.digits 10 b := by
      have := congrArg List.reverse hrev
      simpa using this
    calc a = Nat.ofDigits 10 (Nat.digits 10 a) := (Nat.ofDigits_digits 10 a).symm
    _ = Nat.ofDigits 10 (Nat.digits 10 b) := by rw [hdig]
    _ = b := Nat.ofDigits_digits 10 b

theorem digitChar_isDigit {d : Nat} (hd : d < 10) : (Nat.digitChar d).isDigit = true := by
  interval_cases d <;> decide

theorem digitChar_toNat {d : Nat} (hd : d < 10) : (Nat.digitChar d).toNat - 48 = d := by
  interval_cases d <;> decide

theorem foldl_base10_reverse (D : List Nat) (a : Nat) :
    D.reverse.foldl (fun n d => n * 10 + d) a = a * 10 ^ D.length + Nat.ofDigits 10 D := by
  induction D generalizing a with
  | nil => simp
  | cons d D ih =>
    rw [List.reverse_cons, List.foldl_append, ih]
    simp only [List.foldl_cons, List.foldl_nil, Nat.ofDigits_cons, List.length_cons]
    ring

/-- The TEXT→INTEGER coercion inverts the INTEGER→TEXT rendering. -/
theorem sqlNat?_natStr (n : Nat) : sqlNat? (natStr n) = some n := by
  by_cases hn : n = 0
  · subst hn; decide
  · have hdig : ∀ d ∈ (Nat.digits 10 n).reverse, d < 10 := fun d hd =>
      Nat.digits_lt_base (by norm_num) (by simpa using hd)
    rw [natStr_eq_digits]
    unfold sqlNat?
    rw [if_neg hn]
    have hne : (Nat.digits 10 n).reverse.map Nat.digitChar ≠ [] := by
      simp [Nat.digits_ne_nil_iff_ne_zero.mpr hn]
    have hall : ((Nat.digits 10 n).reverse.map Nat.digitChar).all (fun c => c.isDigit) = true := by
      rw [List.all_eq_true]
      intro c hc
      obtain ⟨d, hd, rfl⟩ := List.mem_map.mp hc
      exact digitChar_isDigit (hdig d hd)
    rw [if_pos ⟨hne, hall⟩]
    congr 1
    rw [List.foldl_map]
    have hext : ((Nat.digits 10 n).reverse.foldl
        (fun x y => x * 10 + ((Nat.digitChar y).toNat - 48)) 0)
        = (Nat.digits 10 n).reverse.foldl (fun x y => x * 10 + y) 0 :=
      List.foldl_ext _ _ 0 (fun a d hd => by rw [digitChar_toNat (hdig d hd)])
    rw [hext, foldl_base10_reverse]
    simp [Nat.ofDigits_digits]

/-! ## `private_connection.py` -/

/-- `generate_connection_string(otp, user_id)`: `f"/92{six}{otp}{user_id}{five}"`
with the two random pads passed explicitly. -/
def generate_connection_string (otp : String) (uid : Nat) (six five : String) : String :=
  "/92" ++ six ++ otp ++ natStr uid ++ five

/-- Result of `check_user_status` (the `"status"` field of the returned dict,
with the data the claims need). -/
inductive PCResult where
  | error (msg : String)
  | already_connected
  | otp_exists (otp conn : String)
  | success (otp conn : String)
  deriving Repr, DecidableEq

def PCResult.connString : PCResult → Option String
  | .otp_exists _ c => some c
  | .success _ c => some c
  | _ => none

def PCResult.otpOut : PCResult → Option String
  | .otp_exists o _ => some o
  | .success o _ => some o
  | _ => none

/-- `check_user_status(user_id)` — the private-link issue operation.
`freshOtp` is the value `generate_otp()` would draw, `six`/`five` the random
pads of the connection string. -/
def check_user_status (freshOtp six five : String) (uid : Nat) (s : State) : PCResult × State :=
  match getRow s uid with
  | none => (.error "User not found in database", s)
  | some u =>
    if truthy u.peer_id ∧ u.status = "PRIVATE" then (.already_connected, s)
    else if pyStrip u.otp ≠ "" then
      (.otp_exists u.otp (generate_connection_string u.otp uid six five), s)
    else
      (.success freshOtp (generate_connection_string freshOtp uid six five),
        setRow s uid (fun r => { r with status := "PRIVATE", timer := 5760, otp := freshOtp }))

/-! ## `otp_clean.py` (`clean_otp`) and `private_connection.py`
(`clean_otp_directly`) — both run the same check-then-clear after the
10-second wait. -/

/-- The statuses for which `clean_otp` keeps the OTP valid. -/
def keepStatuses : List String := ["RANDOM", "PRIVATE", "CONNECTED", "CLOSED", "AI"]

/-- The state effect of the cleanup task once it fires (10 time units after
issuance). -/
def clean_otp (uid : Nat) (s : State) : State :=
  match getRow s uid with
  | none => s
  | some u =>
    if keepStatuses.contains u.status then s
    else setRow s uid (fun r => { r with otp := "", otp_exp := "" })

/-! ## `private_link_verifier.py` -/

/-- `if link_text.startswith('/92'): link_text = link_text[3:]`. -/
def stripToken (t : String) : List Char :=
  if t.data.take 3 = ['/', '9', '2'] then t.data.drop 3 else t.data

/-- `otp_from_link = link_text[6:10]`. -/
def extractOtp (l : List Char) : String := String.mk ((l.drop 6).take 4)

/-- `peer_id_from_link = link_text[10:-5]`. -/
def extractPeerStr (l : List Char) : String := String.mk ((l.take (l.length - 5)).drop 10)

/-- The token parse performed by `verify_private_link`: strip the `/92`
prefix, reject tokens shorter than 20 characters, then slice out the OTP
and the issuer id. -/
def parseToken (t : String) : Option (String × String) :=
  if (stripToken t).length < 20 then none
  else some (extractOtp (stripToken t), extractPeerStr (stripToken t))

inductive VPLResult where
  | error (msg : String)
  | confirmation_needed (peer : String)
  deriving Repr, DecidableEq

/-- `verify_private_link(link_text, user_id)`.  The source returns
`confirmation_needed` unconditionally once the OTP matches; the code after
that `return` (lines 119–161, which would have performed the pairing) is
unreachable and therefore absent here.  No branch mutates the store. -/
def verify_private_link (link_text : String) (uid : Nat) (s : State) : VPLResult × State :=
  if (stripToken link_text).length < 20 then (.error "Invalid private link format", s)
  else
    if natStr uid = extractPeerStr (stripToken link_text) then
      (.error "You cannot connect to yourself", s)
    else
      match sqlNat? (extractPeerStr (stripToken link_text)) with
      | none => (.error "Peer not found", s)
      | some pid =>
        match getRow s pid with
        | none => (.error "Peer not found", s)
        | some peer =>
          if peer.otp = "" ∨ peer.otp ≠ extractOtp (stripToken link_text) then
            (.error "The private link may have expired or is incorrect", s)
          else (.confirmation_needed (extractPeerStr (stripToken link_text)), s)

/-! ## `random_connection.py` -/

inductive RCResult where
  | error (msg : String)
  | waiting
  | success (partner : Nat)
  deriving Repr, DecidableEq

/-- The scan `SELECT USER_ID FROM users WHERE STATUS = 'OPEN' AND USER_ID != ?`. -/
def openCandidates (uid : Nat) (s : State) : List Nat :=
  (s.filter (fun r => r.status == "OPEN" && r.user_id != uid)).map Row.user_id

/-- The two-row update pairing `uid` with `partner` as `RANDOM`. -/
def pairRandom (uid partner : Nat) (s : State) : State :=
  setRow (setRow s uid
      (fun r => { r with peer_id := some (natStr partner), status := "RANDOM" }))
    partner (fun r => { r with peer_id := some (natStr uid), status := "RANDOM" })

/-- `find_random_partner(user_id)`.  `pick` resolves `random.choice`: the
candidate at index `pick % length` of the scan result is selected, so every
possible draw is some `pick`. -/
def find_random_partner (pick : Nat) (uid : Nat) (s : State) : RCResult × State :=
  match getRow s uid with
  | none => (.error "not found", s)
  | some u =>
    if u.status ≠ "OPEN" ∧ u.status ≠ "IDLE" then (.error "already in a connection", s)
    else
      if openCandidates uid s = [] then
        if u.status ≠ "OPEN" then (.waiting, setRow s uid (fun r => { r with status := "OPEN" }))
        else (.waiting, s)
      else
        (.success ((openCandidates uid s).getD (pick % (openCandidates uid s).length) 0),
          pairRandom uid ((openCandidates uid s).getD (pick % (openCandidates uid s).length) 0) s)

/-! ## `anony_number.py` (`handle_an_connection_response`, accept branch) -/

/-- The status set `['CONNECTED', 'PRIVATE', 'RANDOM']` used by the accept
handler to decide whether a party has a live peer to clean up. -/
def bilateralStatus (st : String) : Bool :=
  st == "CONNECTED" || st == "PRIVATE" || st == "RANDOM"

/-- One of the two "disconnect the old peer" steps: given the pre-read row
of a party, if it shows a live bilateral peer, that peer is set to
`CLOSED` with `PEER_ID = NULL`. -/
def cleanup_old_peer (d : Option Row) (s : State) : State :=
  match d with
  | none => s
  | some row =>
    if bilateralStatus row.status && truthy row.peer_id then
      match sqlNat? (row.peer_id.getD "") with
      | some p => setRow s p (fun r => { r with status := "CLOSED", peer_id := none })
      | none => s
    else s

/-- The accept branch of `handle_an_connection_response`: both parties'
rows are read first, each party's old peer is cleaned up, then both are
set to `CONNECTED` pointing at each other (the OTP column is not touched). -/
def accept_an_connection (responder requester : Nat) (s : State) : State :=
  setRow
    (setRow (cleanup_old_peer (getRow s requester) (cleanup_old_peer (getRow s responder) s))
      requester (fun r => { r with status := "CONNECTED", peer_id := some (natStr responder) }))
    responder (fun r => { r with status := "CONNECTED", peer_id := some (natStr requester) })

/-! ## `controls_anonybot.py` -/

/-- `update_user_status(user_id, new_status)` — updates only `STATUS`. -/
def update_user_status (uid : Nat) (newStatus : String) (s : State) : State :=
  setRow s uid (fun r => { r with status := newStatus })

/-- `handle_forward_button`: from status `RANDOM`, set status to `OPEN`
(via `update_user_status`); any other status is rejected with no change. -/
def handle_forward_button (uid : Nat) (s : State) : State :=
  match getRow s uid with
  | none => s
  | some u => if u.status = "RANDOM" then update_user_status uid "OPEN" s else s

/-- `handle_stop_button` (disconnect): no-op when already `CLOSED`; else set
the user `CLOSED`, then (unless the user was a broadcaster) set the
pre-read peer to `CLOSED` with `PEER_ID = NULL`, then clear the user's own
`PEER_ID`.  A listener's `PEER_ID` holds a channel code; the
`UPDATE ... WHERE USER_ID = peer_id` then matches a row only if the code
coerces to a numeric id. -/
def handle_stop_button (uid : Nat) (s : State) : State :=
  match getRow s uid with
  | none => s
  | some u =>
    if u.status = "CLOSED" then s
    else
      setRow
        (if u.status ≠ "BROADCASTER" ∧ truthy u.peer_id then
          match sqlNat? (u.peer_id.getD "") with
          | some p => setRow (update_user_status uid "CLOSED" s) p
              (fun r => { r with status := "CLOSED", peer_id := none })
          | none => update_user_status uid "CLOSED" s
        else update_user_status uid "CLOSED" s)
        uid (fun r => { r with peer_id := none })

/-! ## Invariants from the specification -/

/-- A row in one of the bilateral statuses: `RANDOM`, `CONNECTED`, or
`PRIVATE` post-acceptance (non-empty `peer_id`). -/
def bilateralRow (r : Row) : Bool :=
  r.status == "RANDOM" || r.status == "CONNECTED" || (r.status == "PRIVATE" && truthy r.peer_id)

/-- Symmetric pairing invariant: a bilateral row pointing at another user
is pointed back at, and the partner is bilateral too. -/
def symInv (s : State) : Prop :=
  ∀ a ∈ s, bilateralRow a = true → ∀ b ∈ s, a.peer_id = some (natStr b.user_id) →
    b.peer_id = some (natStr a.user_id) ∧ bilateralRow b = true

instance : DecidablePred symInv := fun s => by unfold symInv; infer_instance

/-- Live-OTP invariant: a non-empty `otp` only on a `PRIVATE` row. -/
def liveOtpInv (s : State) : Prop :=
  ∀ r ∈ s, r.otp ≠ "" → r.status = "PRIVATE"

instance : DecidablePred liveOtpInv := fun s => by unfold liveOtpInv; infer_instance

/-- `USER_ID` is a primary key: ids are pairwise distinct. -/
def uidsNodup (s : State) : Prop := (s.map (fun r => r.user_id)).Nodup

instance : DecidablePred uidsNodup := fun s => by unfold uidsNodup; infer_instance

/-! ## Store infrastructure lemmas -/

theorem getRow_id {s : State} {uid : Nat} {r : Row} (h : getRow s uid = some r) :
    r.user_id = uid := by
  have := List.find?_some h
  simpa using this

theorem getRow_mem {s : State} {uid : Nat} {r : Row} (h : getRow s uid = some r) : r ∈ s :=
  List.mem_of_find?_eq_some h

theorem getRow_setRow (s : State) (uid v : Nat) (f : Row → Row)
    (hf : ∀ r, (f r).user_id = r.user_id) :
    getRow (setRow s uid f) v = (getRow s v).map (fun r => if r.user_id == uid then f r else r) := by
  induction s with
  | nil => rfl
  | cons a s ih =>
    simp only [setRow, List.map_cons, getRow, List.find?_cons] at *
    have hid : (if a.user_id == uid then f a else a).user_id = a.user_id := by
      split <;> simp [hf]
    rw [hid]
    cases hav : (a.user_id == v) with
    | true => simp
    | false => simpa [setRow, getRow] using ih

theorem mem_setRow {s : State} {uid : Nat} {f : Row → Row} {r' : Row}
    (h : r' ∈ setRow s uid f) :
    ∃ r ∈ s, r' = if r.user_id == uid then f r else r := by
  obtain ⟨r, hr, hre⟩ := List.mem_map.mp h
  exact ⟨r, hr, hre.symm⟩

theorem setRow_map_user_id (s : State) (uid : Nat) (f : Row → Row)
    (hf : ∀ r, (f r).user_id = r.user_id) :
    (setRow s uid f).map (fun r => r.user_id) = s.map (fun r => r.user_id) := by
  unfold setRow
  rw [List.map_map]
  apply List.map_congr_left
  intro a _
  simp only [Function.comp]
  split <;> simp [hf]

theorem uidsNodup_setRow {s : State} {uid : Nat} {f : Row → Row}
    (hf : ∀ r, (f r).user_id = r.user_id) (hn : uidsNodup s) : uidsNodup (setRow s uid f) := by
  unfold uidsNodup
  rw [setRow_map_user_id s uid f hf]
  exact hn

theorem getRow_of_mem {s : State} (hn : uidsNodup s) {r : Row} (hr : r ∈ s) :
    getRow s r.user_id = some r := by
  induction s with
  | nil => simp at hr
  | cons a s ih =>
    unfold uidsNodup at hn
    simp only [List.map_cons, List.nodup_cons] at hn
    rcases List.mem_cons.mp hr with h | h
    · subst h
      simp [getRow, List.find?_cons]
    · unfold getRow
      rw [List.find?_cons]
      cases hav : (a.user_id == r.user_id) with
      | true =>
        exfalso
        have heq : a.user_id = r.user_id := by simpa using hav
        exact hn.1 (List.mem_map.mpr ⟨r, h, heq.symm⟩)
      | false => exact ih hn.2 h

theorem mem_of_getRow_ne {s : State} {uid : Nat} {r : Row} (h : getRow s uid = some r) :
    r ∈ s ∧ r.user_id = uid := ⟨getRow_mem h, getRow_id h⟩

/-! ## Claim C10: the forward button is a pure status flip -/

/-- **C10.** For every user whose status is `RANDOM`, `handle_forward_button`
sets only that user's `STATUS` to `OPEN`: the row keeps its `peer_id` (still
pointing at the former partner), `otp` and all other columns, and every
other user's row — in particular the former partner's — is untouched. -/
theorem C10_forward_only_status (s : State) (uid : Nat) (u : Row)
    (hget : getRow s uid = some u) (hst : u.status = "RANDOM") :
    getRow (handle_forward_button uid s) uid = some { u with status := "OPEN" } ∧
    ∀ v, v ≠ uid → getRow (handle_forward_button uid s) v = getRow s v := by
  have huid : u.user_id = uid := getRow_id hget
  have hfb : handle_forward_button uid s
      = setRow s uid (fun r => { r with status := "OPEN" }) := by
    unfold handle_forward_button
    simp only [hget, hst, if_true, update_user_status]
  have hpres : ∀ r : Row, (Row.mk r.user_id r.peer_id "OPEN" r.anony_name r.otp r.otp_exp
      r.timer).user_id = r.user_id := fun r => rfl
  constructor
  · rw [hfb, getRow_setRow s uid uid _ hpres, hget]
    simp [huid]
  · intro v hv
    rw [hfb, getRow_setRow s uid v _ hpres]
    cases hgv : getRow s v with
    | none => rfl
    | some r =>
      have : r.user_id = v := getRow_id hgv
      simp [this, hv]

theorem C10_forward_only_status_witness :
    getRow (handle_forward_button 1
        [⟨1, some "2", "RANDOM", "a", "", "", 120⟩, ⟨2, some "1", "RANDOM", "b", "", "", 120⟩]) 1
      = some ⟨1, some "2", "OPEN", "a", "", "", 120⟩ ∧
    getRow (handle_forward_button 1
        [⟨1, some "2", "RANDOM", "a", "", "", 120⟩, ⟨2, some "1", "RANDOM", "b", "", "", 120⟩]) 2
      = getRow [⟨1, some "2", "RANDOM", "a", "", "", 120⟩, ⟨2, some "1", "RANDOM", "b", "", "", 120⟩] 2 :=
  ⟨(C10_forward_only_status
      [⟨1, some "2", "RANDOM", "a", "", "", 120⟩, ⟨2, some "1", "RANDOM", "b", "", "", 120⟩] 1
      ⟨1, some "2", "RANDOM", "a", "", "", 120⟩ rfl rfl).1,
   (C10_forward_only_status
      [⟨1, some "2", "RANDOM", "a", "", "", 120⟩, ⟨2, some "1", "RANDOM", "b", "", "", 120⟩] 1
      ⟨1, some "2", "RANDOM", "a", "", "", 120⟩ rfl rfl).2 2 (by decide)⟩

/-! ## Claim C7: link verification never pairs immediately -/

/-- **C7.** Whenever the supplied token parses (long enough), its embedded
issuer differs from the claimant, the issuer's row exists, and the issuer's
stored OTP is non-empty and equal to the token's OTP, `verify_private_link`
returns `confirmation_needed` carrying the issuer's id — and leaves the
store exactly as it was (no row of any user is mutated). -/
theorem C7_verify_frames_state (s : State) (claimant : Nat) (token : String)
    (pid : Nat) (peer : Row)
    (hlen : ¬ (stripToken token).length < 20)
    (hself : natStr claimant ≠ extractPeerStr (stripToken token))
    (hpid : sqlNat? (extractPeerStr (stripToken token)) = some pid)
    (hrow : getRow s pid = some peer)
    (hne : peer.otp ≠ "")
    (hmatch : peer.otp = extractOtp (stripToken token)) :
    verify_private_link token claimant s
      = (.confirmation_needed (extractPeerStr (stripToken token)), s) := by
  unfold verify_private_link
  rw [if_neg hlen, if_neg hself, hpid]
  simp only [hrow]
  rw [if_neg (by push_neg; exact ⟨hne, hmatch⟩)]

theorem C7_verify_frames_state_witness :
    verify_private_link (generate_connection_string "1234" 10000 "111111" "11111") 400
        [⟨10000, none, "PRIVATE", "iss", "1234", "", 5760⟩]
      = (.confirmation_needed
          (extractPeerStr (stripToken (generate_connection_string "1234" 10000 "111111" "11111"))),
         [⟨10000, none, "PRIVATE", "iss", "1234", "", 5760⟩]) :=
  C7_verify_frames_state _ 400 _ 10000 _ (by decide) (by decide) (by decide) rfl
    (by decide) (by decide)

/-! ## Claim C9: connection-token round trip -/

/-- Slicing apart a token body of the generated shape
`six ++ otp ++ issuer ++ five` recovers the otp and the issuer, provided
the issuer rendering is at least 5 characters long (shorter bodies fail
the parser's 20-character minimum). -/
theorem token_slices (six otp u five : List Char)
    (hsix : six.length = 6) (hotp : otp.length = 4) (hu : 5 ≤ u.length)
    (hfive : five.length = 5) :
    ¬ (six ++ (otp ++ (u ++ five))).length < 20 ∧
    extractOtp (six ++ (otp ++ (u ++ five))) = String.mk otp ∧
    extractPeerStr (six ++ (otp ++ (u ++ five))) = String.mk u := by
  refine ⟨?_, ?_, ?_⟩
  · simp [List.length_append, hsix, hotp, hfive]
    omega
  · unfold extractOtp
    rw [List.drop_left' hsix, List.take_append_of_le_length (by omega),
      List.take_of_length_le (by omega)]
  · unfold extractPeerStr
    have hlen : (six ++ (otp ++ (u ++ five))).length - 5 = 6 + (4 + u.length) := by
      simp [List.length_append, hsix, hotp, hfive]
      omega
    rw [hlen]
    have hassoc : six ++ (otp ++ (u ++ five)) = (six ++ (otp ++ u)) ++ five := by
      simp [List.append_assoc]
    rw [hassoc, List.take_left' (by simp [List.length_append, hsix, hotp]),
      ← List.append_assoc, List.drop_left' (by simp [List.length_append, hsix, hotp])]

theorem stripToken_gen (otp : String) (uid : Nat) (six five : String) :
    stripToken (generate_connection_string otp uid six five)
      = six.data ++ (otp.data ++ ((natStr uid).data ++ five.data)) := by
  unfold stripToken generate_connection_string
  simp only [String.data_append, List.append_assoc]
  rw [if_pos (@List.take_left' Char ['/', '9', '2'] _ 3 rfl)]
  exact @List.drop_left' Char ['/', '9', '2'] _ 3 rfl

/-- **C9 (as stated) is false**: for issuer id `1` (fewer than 5 decimal
digits) the generated token body is 16 characters, below
`verify_private_link`'s 20-character minimum, so the parse does not
recover `("1234", "1")` — it rejects the token outright. -/
theorem C9_counterexample :
    parseToken (generate_connection_string "1234" 1 "111111" "11111") ≠ some ("1234", "1") := by
  decide

/-- **C9 (amended).** For every 4-digit OTP and every issuer whose decimal
rendering has at least 5 characters (id ≥ 10000 — true of real Telegram
ids), parsing the generated token with `verify_private_link`'s extraction
rules recovers exactly the original otp and issuer id. -/
theorem C9_token_round_trip (otp : String) (uid : Nat) (six five : String)
    (hotp : otp.length = 4) (hsix : six.length = 6) (hfive : five.length = 5)
    (huid : 5 ≤ (natStr uid).length) :
    parseToken (generate_connection_string otp uid six five) = some (otp, natStr uid) := by
  have hs := token_slices six.data otp.data (natStr uid).data five.data hsix hotp huid hfive
  unfold parseToken
  rw [stripToken_gen, if_neg hs.1, hs.2.1, hs.2.2]

theorem C9_token_round_trip_witness :
    parseToken (generate_connection_string "1234" 10000 "111111" "11111")
      = some ("1234", natStr 10000) :=
  C9_token_round_trip "1234" 10000 "111111" "11111" rfl rfl rfl (by decide)

/-! ## Claim C2: idempotence of the private-link issue operation -/

/-- **C2 (as stated) is false**: with a live OTP the operation reuses the
OTP but rebuilds the connection string around fresh random padding, so two
successive calls (no state change in between — the first call's post-state
is its pre-state) return different token strings whenever the pads differ. -/
theorem C2_counterexample :
    (check_user_status "9999" "222222" "22222" 300
        (check_user_status "9999" "111111" "11111" 300
          [⟨300, none, "PRIVATE", "iss", "1234", "", 5760⟩]).2).1.connString
      ≠ (check_user_status "9999" "111111" "11111" 300
          [⟨300, none, "PRIVATE", "iss", "1234", "", 5760⟩]).1.connString := by
  decide

/-- **C2 (amended).** For a user holding a live OTP (and not already in a
bilateral private connection), two successive `IssuePrivateLink` calls with
no intervening state change both return `otp_exists` with the *same* stored
OTP and mutate nothing; the returned token strings embed that same OTP and
issuer id and differ only in the random padding drawn for each call. -/
theorem C2_otp_reuse (s : State) (uid : Nat) (u : Row)
    (o1 six1 five1 o2 six2 five2 : String)
    (hget : getRow s uid = some u)
    (hnc : ¬ (truthy u.peer_id = true ∧ u.status = "PRIVATE"))
    (hotp : pyStrip u.otp ≠ "") :
    check_user_status o1 six1 five1 uid s
      = (.otp_exists u.otp (generate_connection_string u.otp uid six1 five1), s) ∧
    check_user_status o2 six2 five2 uid (check_user_status o1 six1 five1 uid s).2
      = (.otp_exists u.otp (generate_connection_string u.otp uid six2 five2), s) := by
  have h1 : check_user_status o1 six1 five1 uid s
      = (.otp_exists u.otp (generate_connection_string u.otp uid six1 five1), s) := by
    unfold check_user_status
    rw [hget]
    simp [hnc, hotp]
  refine ⟨h1, ?_⟩
  rw [h1]
  unfold check_user_status
  rw [hget]
  simp [hnc, hotp]

theorem C2_otp_reuse_witness :
    check_user_status "9999" "111111" "11111" 300
        [⟨300, none, "PRIVATE", "iss", "1234", "", 5760⟩]
      = (.otp_exists "1234" (generate_connection_string "1234" 300 "111111" "11111"),
         [⟨300, none, "PRIVATE", "iss", "1234", "", 5760⟩]) ∧
    check_user_status "9998" "222222" "22222" 300
        (check_user_status "9999" "111111" "11111" 300
          [⟨300, none, "PRIVATE", "iss", "1234", "", 5760⟩]).2
      = (.otp_exists "1234" (generate_connection_string "1234" 300 "222222" "22222"),
         [⟨300, none, "PRIVATE", "iss", "1234", "", 5760⟩]) :=
  C2_otp_reuse [⟨300, none, "PRIVATE", "iss", "1234", "", 5760⟩] 300
    ⟨300, none, "PRIVATE", "iss", "1234", "", 5760⟩
    "9999" "111111" "11111" "9998" "222222" "22222" rfl (by decide) (by decide)

/-! ## Claim C4: OTP expiry by the background cleanup task -/

/-- **C4 (as stated) is false**: immediately after issuance the issuing
user's status is `PRIVATE`, which is *in* the cleanup task's keep-list, so
an issuer whose link is still unclaimed keeps the OTP — the task never
clears it on the normal issue flow. -/
theorem C4_counterexample :
    statusOf (check_user_status "1234" "111111" "11111" 300
        [⟨300, none, "OPEN", "iss", "", "", 120⟩]).2 300 = some "PRIVATE" ∧
    otpOf (clean_otp 300 (check_user_status "1234" "111111" "11111" 300
        [⟨300, none, "OPEN", "iss", "", "", 120⟩]).2) 300 = some "1234" := by
  decide

/-- **C4 (amended).** When the cleanup task fires it re-reads the user's
status: if the status is in `{RANDOM, PRIVATE, CONNECTED, CLOSED, AI}` the
whole store is left untouched (in particular an unclaimed issuer, being
`PRIVATE`, keeps its OTP); otherwise it clears exactly that user's `OTP`
and `OTP_EXP` to empty, leaving every other column and every other user
unchanged. -/
theorem C4_cleanup_behaviour (s : State) (uid : Nat) (u : Row)
    (hget : getRow s uid = some u) :
    (keepStatuses.contains u.status = true → clean_otp uid s = s) ∧
    (keepStatuses.contains u.status = false →
      getRow (clean_otp uid s) uid = some { u with otp := "", otp_exp := "" } ∧
      ∀ v, v ≠ uid → getRow (clean_otp uid s) v = getRow s v) := by
  have huid : u.user_id = uid := getRow_id hget
  constructor
  · intro hkeep
    unfold clean_otp
    rw [hget]
    exact if_pos hkeep
  · intro hkeep
    have hco : clean_otp uid s = setRow s uid (fun r => { r with otp := "", otp_exp := "" }) := by
      unfold clean_otp
      rw [hget]
      exact if_neg (by rw [hkeep]; simp)
    have hpres : ∀ r : Row, (Row.mk r.user_id r.peer_id r.status r.anony_name "" ""
        r.timer).user_id = r.user_id := fun r => rfl
    constructor
    · rw [hco, getRow_setRow s uid uid _ hpres, hget]
      simp [huid]
    · intro v hv
      rw [hco, getRow_setRow s uid v _ hpres]
      cases hgv : getRow s v with
      | none => rfl
      | some r =>
        have : r.user_id = v := getRow_id hgv
        simp [this, hv]

theorem C4_cleanup_behaviour_witness :
    keepStatuses.contains "OPEN" = false ∧
    getRow (clean_otp 300 [⟨300, none, "OPEN", "iss", "1234", "x", 120⟩,
        ⟨301, none, "OPEN", "b", "9", "y", 5⟩]) 300
      = some ⟨300, none, "OPEN", "iss", "", "", 120⟩ ∧
    getRow (clean_otp 300 [⟨300, none, "OPEN", "iss", "1234", "x", 120⟩,
        ⟨301, none, "OPEN", "b", "9", "y", 5⟩]) 301
      = getRow [⟨300, none, "OPEN", "iss", "1234", "x", 120⟩,
        ⟨301, none, "OPEN", "b", "9", "y", 5⟩] 301 :=
  ⟨by decide,
   ((C4_cleanup_behaviour [⟨300, none, "OPEN", "iss", "1234", "x", 120⟩,
       ⟨301, none, "OPEN", "b", "9", "y", 5⟩] 300
       ⟨300, none, "OPEN", "iss", "1234", "x", 120⟩ rfl).2 (by decide)).1,
   ((C4_cleanup_behaviour [⟨300, none, "OPEN", "iss", "1234", "x", 120⟩,
       ⟨301, none, "OPEN", "b", "9", "y", 5⟩] 300
       ⟨300, none, "OPEN", "iss", "1234", "x", 120⟩ rfl).2 (by decide)).2 301 (by decide)⟩

/-! ## Claim C8: random-match scenario -/

/-- Effect of the two-row `RANDOM` pairing update on each party's row. -/
theorem pairRandom_spec (s : State) (uid p : Nat) (u pr : Row)
    (hget : getRow s uid = some u) (hgp : getRow s p = some pr) (hne : p ≠ uid) :
    getRow (pairRandom uid p s) uid
      = some { u with peer_id := some (natStr p), status := "RANDOM" } ∧
    getRow (pairRandom uid p s) p
      = some { pr with peer_id := some (natStr uid), status := "RANDOM" } := by
  have huid : u.user_id = uid := getRow_id hget
  have hpid : pr.user_id = p := getRow_id hgp
  have hf1 : ∀ r : Row, (Row.mk r.user_id (some (natStr p)) "RANDOM" r.anony_name r.otp
      r.otp_exp r.timer).user_id = r.user_id := fun r => rfl
  have hf2 : ∀ r : Row, (Row.mk r.user_id (some (natStr uid)) "RANDOM" r.anony_name r.otp
      r.otp_exp r.timer).user_id = r.user_id := fun r => rfl
  unfold pairRandom
  constructor
  · rw [getRow_setRow _ p uid _ hf2, getRow_setRow s uid uid _ hf1, hget]
    simp [huid, Ne.symm hne]
  · rw [getRow_setRow _ p p _ hf2, getRow_setRow s uid p _ hf1, hgp]
    simp [hpid, hne]

/-- **C8.** (i) A requester in status `OPEN` or `IDLE` finding no other
`OPEN` user gets a `waiting` result (no error) and ends with status `OPEN`.
(ii) A requester in status `OPEN` or `IDLE` in a store containing another
`OPEN` user gets a `success` result naming a partner who is never the
requester; both end in status `RANDOM` with `peer_id` pointing at each
other. -/
theorem C8_random_match_scenario :
    (∀ (s : State) (uid : Nat) (u : Row) (pick : Nat),
      getRow s uid = some u → (u.status = "OPEN" ∨ u.status = "IDLE") →
      (∀ r ∈ s, r.status = "OPEN" → r.user_id = uid) →
      (find_random_partner pick uid s).1 = RCResult.waiting ∧
      statusOf (find_random_partner pick uid s).2 uid = some "OPEN") ∧
    (∀ (s : State) (uid : Nat) (u : Row) (pick : Nat),
      uidsNodup s →
      getRow s uid = some u → (u.status = "OPEN" ∨ u.status = "IDLE") →
      (∃ r ∈ s, r.status = "OPEN" ∧ r.user_id ≠ uid) →
      ∃ p, (find_random_partner pick uid s).1 = RCResult.success p ∧ p ≠ uid ∧
        statusOf (find_random_partner pick uid s).2 uid = some "RANDOM" ∧
        peerOf (find_random_partner pick uid s).2 uid = some (some (natStr p)) ∧
        statusOf (find_random_partner pick uid s).2 p = some "RANDOM" ∧
        peerOf (find_random_partner pick uid s).2 p = some (some (natStr uid))) := by
  constructor
  · intro s uid u pick hget hst hno
    have hni : ¬ (u.status ≠ "OPEN" ∧ u.status ≠ "IDLE") := by
      rcases hst with h | h <;> simp [h]
    have hcand : openCandidates uid s = [] := by
      unfold openCandidates
      rw [List.filter_eq_nil_iff.mpr ?_, List.map_nil]
      intro r hr
      simp only [Bool.and_eq_true, beq_iff_eq, bne_iff_ne, ne_eq, not_and, not_not]
      intro hopen
      exact hno r hr hopen
    have huid : u.user_id = uid := getRow_id hget
    unfold find_random_partner
    simp only [hget]
    rw [if_neg hni, if_pos hcand]
    rcases hst with h | h
    · rw [if_neg (by simp [h])]
      exact ⟨rfl, by simp [statusOf, hget, h]⟩
    · rw [if_pos (by simp [h])]
      refine ⟨rfl, ?_⟩
      show statusOf (setRow s uid (fun r => { r with status := "OPEN" })) uid = some "OPEN"
      unfold statusOf
      rw [getRow_setRow s uid uid (fun r => { r with status := "OPEN" }) (fun r => rfl), hget]
      simp [huid]
  · intro s uid u pick hn hget hst hex
    have hni : ¬ (u.status ≠ "OPEN" ∧ u.status ≠ "IDLE") := by
      rcases hst with h | h <;> simp [h]
    obtain ⟨r0, hr0s, hr0open, hr0ne⟩ := hex
    have hr0f : r0 ∈ s.filter (fun r => r.status == "OPEN" && r.user_id != uid) := by
      rw [List.mem_filter]
      exact ⟨hr0s, by simp [hr0open, hr0ne]⟩
    have hcne : ¬ openCandidates uid s = [] := by
      unfold openCandidates
      intro h
      rw [List.map_eq_nil_iff] at h
      rw [h] at hr0f
      simp at hr0f
    have hlenpos : 0 < (openCandidates uid s).length :=
      List.length_pos.mpr hcne
    have hidx : pick % (openCandidates uid s).length < (openCandidates uid s).length :=
      Nat.mod_lt _ hlenpos
    have hpmem : (openCandidates uid s).getD (pick % (openCandidates uid s).length) 0
        ∈ openCandidates uid s := by
      rw [List.getD_eq_getElem _ _ hidx]
      exact List.getElem_mem hidx
    obtain ⟨pr, hprf, hprid⟩ := List.mem_map.mp hpmem
    have hprs : pr ∈ s := (List.mem_filter.mp hprf).1
    have hprcond := (List.mem_filter.mp hprf).2
    simp only [Bool.and_eq_true, beq_iff_eq, bne_iff_ne, ne_eq] at hprcond
    have hprne : pr.user_id ≠ uid := hprcond.2
    have hgp : getRow s pr.user_id = some pr := getRow_of_mem hn hprs
    have hpair := pairRandom_spec s uid pr.user_id u pr hget hgp hprne
    refine ⟨pr.user_id, ?_, hprne, ?_, ?_, ?_, ?_⟩ <;>
      unfold find_random_partner <;>
      simp only [hget] <;>
      rw [if_neg hni, if_neg hcne] <;>
      rw [← hprid]
    · simp [statusOf, hpair.1]
    · simp [peerOf, hpair.1]
    · simp [statusOf, hpair.2]
    · simp [peerOf, hpair.2]

theorem C8_random_match_scenario_witness :
    ((find_random_partner 0 100 [⟨100, none, "OPEN", "u100", "", "", 120⟩]).1
        = RCResult.waiting ∧
      statusOf (find_random_partner 0 100 [⟨100, none, "OPEN", "u100", "", "", 120⟩]).2 100
        = some "OPEN") ∧
    ∃ p, (find_random_partner 0 200
        [⟨100, none, "OPEN", "u100", "", "", 120⟩, ⟨200, none, "OPEN", "u200", "", "", 120⟩]).1
        = RCResult.success p ∧ p ≠ 200 ∧
      statusOf (find_random_partner 0 200
        [⟨100, none, "OPEN", "u100", "", "", 120⟩, ⟨200, none, "OPEN", "u200", "", "", 120⟩]).2 200
        = some "RANDOM" ∧
      peerOf (find_random_partner 0 200
        [⟨100, none, "OPEN", "u100", "", "", 120⟩, ⟨200, none, "OPEN", "u200", "", "", 120⟩]).2 200
        = some (some (natStr p)) ∧
      statusOf (find_random_partner 0 200
        [⟨100, none, "OPEN", "u100", "", "", 120⟩, ⟨200, none, "OPEN", "u200", "", "", 120⟩]).2 p
        = some "RANDOM" ∧
      peerOf (find_random_partner 0 200
        [⟨100, none, "OPEN", "u100", "", "", 120⟩, ⟨200, none, "OPEN", "u200", "", "", 120⟩]).2 p
        = some (some (natStr 200)) :=
  ⟨C8_random_match_scenario.1 [⟨100, none, "OPEN", "u100", "", "", 120⟩] 100
      ⟨100, none, "OPEN", "u100", "", "", 120⟩ 0 rfl (Or.inl rfl) (by decide),
   C8_random_match_scenario.2
      [⟨100, none, "OPEN", "u100", "", "", 120⟩, ⟨200, none, "OPEN", "u200", "", "", 120⟩] 200
      ⟨200, none, "OPEN", "u200", "", "", 120⟩ 0 (by decide) rfl (Or.inl rfl)
      ⟨⟨100, none, "OPEN", "u100", "", "", 120⟩, by decide⟩⟩

/-! ## More store infrastructure -/

theorem truthy_some_of_ne {s : String} (h : s ≠ "") : truthy (some s) = true := by
  unfold truthy
  cases hb : s.isEmpty with
  | false => simp [hb]
  | true => exact absurd ((String.isEmpty_iff s).mp hb) h

theorem truthy_natStr (n : Nat) : truthy (some (natStr n)) = true :=
  truthy_some_of_ne (natStr_ne_empty n)

theorem getRow_setRow_self {s : State} {uid : Nat} {r : Row} (f : Row → Row)
    (hf : ∀ r, (f r).user_id = r.user_id) (h : getRow s uid = some r) :
    getRow (setRow s uid f) uid = some (f r) := by
  rw [getRow_setRow s uid uid f hf, h]
  simp [getRow_id h]

theorem getRow_setRow_of_ne {s : State} {uid v : Nat} (f : Row → Row)
    (hf : ∀ r, (f r).user_id = r.user_id) (hv : v ≠ uid) :
    getRow (setRow s uid f) v = getRow s v := by
  rw [getRow_setRow s uid v f hf]
  cases h : getRow s v with
  | none => rfl
  | some r => simp [getRow_id h, hv]

/-! ## Claim C6: anonymous-number accept cleans up both prior peers -/

/-- **C6.** With responder `A` bilaterally holding peer `B` and requester
`C` bilaterally holding peer `D` (all four distinct, ids unique),
`accept_an_connection A C` sets `B` and `D` to `CLOSED` with cleared
`peer_id` and then pairs `A` and `C` as `CONNECTED` pointing at each
other. -/
theorem C6_accept_forced_cleanup (s : State) (A B C D : Nat) (ra rb rc rd : Row)
    (hA : getRow s A = some ra) (hB : getRow s B = some rb)
    (hC : getRow s C = some rc) (hD : getRow s D = some rd)
    (hABil : bilateralStatus ra.status = true) (hCBil : bilateralStatus rc.status = true)
    (hApeer : ra.peer_id = some (natStr B)) (hCpeer : rc.peer_id = some (natStr D))
    (hAB : A ≠ B) (hAC : A ≠ C) (hAD : A ≠ D) (hBC : B ≠ C) (hBD : B ≠ D) (hCD : C ≠ D) :
    getRow (accept_an_connection A C s) B
      = some { rb with status := "CLOSED", peer_id := none } ∧
    getRow (accept_an_connection A C s) D
      = some { rd with status := "CLOSED", peer_id := none } ∧
    getRow (accept_an_connection A C s) A
      = some { ra with status := "CONNECTED", peer_id := some (natStr C) } ∧
    getRow (accept_an_connection A C s) C
      = some { rc with status := "CONNECTED", peer_id := some (natStr A) } := by
  have hclid : ∀ r : Row, (Row.mk r.user_id none "CLOSED" r.anony_name r.otp r.otp_exp
      r.timer).user_id = r.user_id := fun r => rfl
  have hcid : ∀ r : Row, (Row.mk r.user_id (some (natStr A)) "CONNECTED" r.anony_name r.otp
      r.otp_exp r.timer).user_id = r.user_id := fun r => rfl
  have haid : ∀ r : Row, (Row.mk r.user_id (some (natStr C)) "CONNECTED" r.anony_name r.otp
      r.otp_exp r.timer).user_id = r.user_id := fun r => rfl
  have hacc : accept_an_connection A C s
      = setRow (setRow (setRow (setRow s B
            (fun r => { r with status := "CLOSED", peer_id := none })) D
            (fun r => { r with status := "CLOSED", peer_id := none })) C
            (fun r => { r with status := "CONNECTED", peer_id := some (natStr A) })) A
            (fun r => { r with status := "CONNECTED", peer_id := some (natStr C) }) := by
    unfold accept_an_connection cleanup_old_peer
    rw [hA, hC]
    simp only [hABil, hApeer, hCBil, hCpeer, truthy_natStr, Bool.and_self, if_true,
      Option.getD_some, sqlNat?_natStr]
  rw [hacc]
  refine ⟨?_, ?_, ?_, ?_⟩
  · rw [getRow_setRow_of_ne _ haid (Ne.symm hAB).symm.symm]
    rw [getRow_setRow_of_ne _ hcid hBC]
    rw [getRow_setRow_of_ne _ hclid hBD]
    rw [getRow_setRow_self _ hclid hB]
  · rw [getRow_setRow_of_ne _ haid (Ne.symm hAD)]
    rw [getRow_setRow_of_ne _ hcid (Ne.symm hCD)]
    rw [getRow_setRow_self _ hclid ?_]
    rw [getRow_setRow_of_ne _ hclid (Ne.symm hBD)]
    exact hD
  · rw [getRow_setRow_self _ haid ?_]
    rw [getRow_setRow_of_ne _ hcid hAC]
    rw [getRow_setRow_of_ne _ hclid hAD]
    rw [getRow_setRow_of_ne _ hclid hAB]
    exact hA
  · rw [getRow_setRow_of_ne _ haid (Ne.symm hAC)]
    rw [getRow_setRow_self _ hcid ?_]
    rw [getRow_setRow_of_ne _ hclid hCD]
    rw [getRow_setRow_of_ne _ hclid (Ne.symm hBC)]
    exact hC

theorem C6_accept_forced_cleanup_witness :
    getRow (accept_an_connection 1 3
        [⟨1, some "2", "CONNECTED", "a", "", "", 120⟩, ⟨2, some "1", "CONNECTED", "b", "", "", 120⟩,
         ⟨3, some "4", "CONNECTED", "c", "", "", 120⟩, ⟨4, some "3", "CONNECTED", "d", "", "", 120⟩]) 2
      = some ⟨2, none, "CLOSED", "b", "", "", 120⟩ ∧
    getRow (accept_an_connection 1 3
        [⟨1, some "2", "CONNECTED", "a", "", "", 120⟩, ⟨2, some "1", "CONNECTED", "b", "", "", 120⟩,
         ⟨3, some "4", "CONNECTED", "c", "", "", 120⟩, ⟨4, some "3", "CONNECTED", "d", "", "", 120⟩]) 4
      = some ⟨4, none, "CLOSED", "d", "", "", 120⟩ ∧
    getRow (accept_an_connection 1 3
        [⟨1, some "2", "CONNECTED", "a", "", "", 120⟩, ⟨2, some "1", "CONNECTED", "b", "", "", 120⟩,
         ⟨3, some "4", "CONNECTED", "c", "", "", 120⟩, ⟨4, some "3", "CONNECTED", "d", "", "", 120⟩]) 1
      = some ⟨1, some (natStr 3), "CONNECTED", "a", "", "", 120⟩ ∧
    getRow (accept_an_connection 1 3
        [⟨1, some "2", "CONNECTED", "a", "", "", 120⟩, ⟨2, some "1", "CONNECTED", "b", "", "", 120⟩,
         ⟨3, some "4", "CONNECTED", "c", "", "", 120⟩, ⟨4, some "3", "CONNECTED", "d", "", "", 120⟩]) 3
      = some ⟨3, some (natStr 1), "CONNECTED", "c", "", "", 120⟩ :=
  C6_accept_forced_cleanup
    [⟨1, some "2", "CONNECTED", "a", "", "", 120⟩, ⟨2, some "1", "CONNECTED", "b", "", "", 120⟩,
     ⟨3, some "4", "CONNECTED", "c", "", "", 120⟩, ⟨4, some "3", "CONNECTED", "d", "", "", 120⟩]
    1 2 3 4 ⟨1, some "2", "CONNECTED", "a", "", "", 120⟩ ⟨2, some "1", "CONNECTED", "b", "", "", 120⟩
    ⟨3, some "4", "CONNECTED", "c", "", "", 120⟩ ⟨4, some "3", "CONNECTED", "d", "", "", 120⟩
    rfl rfl rfl rfl rfl rfl (by decide) (by decide) (by decide) (by decide) (by decide)
    (by decide) (by decide) (by decide)

/-! ## Claim C5: the live-OTP invariant -/

theorem eq_of_mem_getRow {s : State} {uid : Nat} (hn : uidsNodup s) {r u : Row}
    (hr : r ∈ s) (hid : r.user_id = uid) (hget : getRow s uid = some u) : r = u := by
  have h := getRow_of_mem hn hr
  rw [hid, hget] at h
  exact (Option.some.injEq _ _ ▸ h).symm

theorem liveOtpInv_setRow_of_keep {s : State} {uid : Nat} {f : Row → Row}
    (hinv : liveOtpInv s) (ho : ∀ r, (f r).otp = r.otp)
    (hempty : ∀ r ∈ s, r.user_id = uid → r.otp = "") :
    liveOtpInv (setRow s uid f) := by
  intro q hq hqo
  obtain ⟨r, hr, hre⟩ := mem_setRow hq
  by_cases hid : (r.user_id == uid) = true
  · rw [hre, if_pos hid] at hqo ⊢
    rw [ho] at hqo
    exact absurd (hempty r hr (by simpa using hid)) hqo
  · rw [hre, if_neg hid] at hqo ⊢
    exact hinv r hr hqo

theorem liveOtpInv_setRow_of_private {s : State} {uid : Nat} {f : Row → Row}
    (hinv : liveOtpInv s) (hp : ∀ r, (f r).status = "PRIVATE") :
    liveOtpInv (setRow s uid f) := by
  intro q hq hqo
  obtain ⟨r, hr, hre⟩ := mem_setRow hq
  by_cases hid : (r.user_id == uid) = true
  · rw [hre, if_pos hid]
    exact hp r
  · rw [hre, if_neg hid] at hqo ⊢
    exact hinv r hr hqo

theorem liveOtpInv_setRow_of_clear {s : State} {uid : Nat} {f : Row → Row}
    (hinv : liveOtpInv s) (hc : ∀ r, (f r).otp = "") :
    liveOtpInv (setRow s uid f) := by
  intro q hq hqo
  obtain ⟨r, hr, hre⟩ := mem_setRow hq
  by_cases hid : (r.user_id == uid) = true
  · rw [hre, if_pos hid] at hqo
    exact absurd (hc r) hqo
  · rw [hre, if_neg hid] at hqo ⊢
    exact hinv r hr hqo

/-- `verify_private_link` never mutates the store on any path. -/
theorem verify_private_link_snd (t : String) (uid : Nat) (s : State) :
    (verify_private_link t uid s).2 = s := by
  unfold verify_private_link
  repeat' split
  all_goals rfl

/-- **C5 (as stated) is false**: the anonymous-number accept path does not
touch the OTP column, so accepting while holding a live OTP (status
`PRIVATE`) leaves a non-empty `otp` on a now-`CONNECTED` row. -/
theorem C5_counterexample :
    liveOtpInv [⟨1, none, "PRIVATE", "a", "1234", "", 120⟩, ⟨2, none, "IDLE", "b", "", "", 120⟩] ∧
    ¬ liveOtpInv (accept_an_connection 1 2
      [⟨1, none, "PRIVATE", "a", "1234", "", 120⟩, ⟨2, none, "IDLE", "b", "", "", 120⟩]) := by
  constructor
  · decide
  · decide

/-- **C5 (amended).** The live-OTP invariant (non-empty `otp` only on a
`PRIVATE` row) is preserved by random match, private-link issue,
private-link verify, forward/resume and the OTP cleanup task — but *not*
by the anonymous-number accept (counterexample above), nor by
stop/disconnect or broadcast join, which likewise change status without
clearing the OTP column. -/
theorem C5_liveotp_preservation :
    (∀ (pick uid : Nat) (s : State), uidsNodup s → liveOtpInv s →
      liveOtpInv (find_random_partner pick uid s).2) ∧
    (∀ (o six five : String) (uid : Nat) (s : State), liveOtpInv s →
      liveOtpInv (check_user_status o six five uid s).2) ∧
    (∀ (t : String) (uid : Nat) (s : State), liveOtpInv s →
      liveOtpInv (verify_private_link t uid s).2) ∧
    (∀ (uid : Nat) (s : State), uidsNodup s → liveOtpInv s →
      liveOtpInv (handle_forward_button uid s)) ∧
    (∀ (uid : Nat) (s : State), liveOtpInv s → liveOtpInv (clean_otp uid s)) := by
  refine ⟨?_, ?_, ?_, ?_, ?_⟩
  · intro pick uid s hn hinv
    cases hget : getRow s uid with
    | none => simp only [find_random_partner, hget]; exact hinv
    | some u =>
      simp only [find_random_partner, hget]
      have hmem := getRow_mem hget
      have huid := getRow_id hget
      by_cases hni : u.status ≠ "OPEN" ∧ u.status ≠ "IDLE"
      · rw [if_pos hni]; exact hinv
      · rw [if_neg hni]
        push_neg at hni
        have huotp : u.otp = "" := by
          by_contra hne
          have := hinv u hmem hne
          rcases Decidable.em (u.status = "OPEN") with h | h
          · rw [h] at this; exact absurd this (by decide)
          · rw [hni h] at this; exact absurd this (by decide)
        have hempty : ∀ r ∈ s, r.user_id = uid → r.otp = "" := by
          intro r hr hid
          rw [eq_of_mem_getRow hn hr hid hget]
          exact huotp
        by_cases hcand : openCandidates uid s = []
        · rw [if_pos hcand]
          by_cases hopen : u.status ≠ "OPEN"
          · rw [if_pos hopen]
            apply liveOtpInv_setRow_of_keep hinv
            · exact fun r => rfl
            · exact hempty
          · rw [if_neg hopen]; exact hinv
        · rw [if_neg hcand]
          have hidx : pick % (openCandidates uid s).length < (openCandidates uid s).length :=
            Nat.mod_lt _ (List.length_pos.mpr hcand)
          have hpmem : (openCandidates uid s).getD (pick % (openCandidates uid s).length) 0
              ∈ openCandidates uid s := by
            rw [List.getD_eq_getElem _ _ hidx]
            exact List.getElem_mem hidx
          obtain ⟨pr, hprf, hprid⟩ := List.mem_map.mp hpmem
          have hprs : pr ∈ s := (List.mem_filter.mp hprf).1
          have hprcond := (List.mem_filter.mp hprf).2
          simp only [Bool.and_eq_true, beq_iff_eq, bne_iff_ne, ne_eq] at hprcond
          have hprotp : pr.otp = "" := by
            by_contra hne
            have := hinv pr hprs hne
            rw [hprcond.1] at this
            exact absurd this (by decide)
          unfold pairRandom
          have hinv1 : liveOtpInv (setRow s uid (fun r =>
              { r with peer_id := some (natStr ((openCandidates uid s).getD
                  (pick % (openCandidates uid s).length) 0)), status := "RANDOM" })) :=
            liveOtpInv_setRow_of_keep hinv (fun r => rfl) hempty
          apply liveOtpInv_setRow_of_keep hinv1
          · exact fun r => rfl
          intro q hq hqid
          obtain ⟨r, hr, hre⟩ := mem_setRow hq
          have hqotp : q.otp = r.otp := by
            rw [hre]; split <;> rfl
          have hqid2 : r.user_id = q.user_id := by
            rw [hre]; split <;> rfl
          rw [hqotp]
          have hrid : r.user_id
              = (openCandidates uid s).getD (pick % (openCandidates uid s).length) 0 := by
            rw [hqid2, hqid]
          rw [← hprid] at hrid
          rw [eq_of_mem_getRow hn hr hrid (getRow_of_mem hn hprs)]
          exact hprotp
  · intro o six five uid s hinv
    cases hget : getRow s uid with
    | none => simp only [check_user_status, hget]; exact hinv
    | some u =>
      simp only [check_user_status, hget]
      by_cases h1 : truthy u.peer_id = true ∧ u.status = "PRIVATE"
      · rw [if_pos h1]; exact hinv
      · rw [if_neg h1]
        by_cases h2 : pyStrip u.otp ≠ ""
        · rw [if_pos h2]; exact hinv
        · rw [if_neg h2]
          apply liveOtpInv_setRow_of_private hinv
          exact fun r => rfl
  · intro t uid s hinv
    rw [verify_private_link_snd]
    exact hinv
  · intro uid s hn hinv
    cases hget : getRow s uid with
    | none => simp only [handle_forward_button, hget]; exact hinv
    | some u =>
      simp only [handle_forward_button, hget]
      by_cases hst : u.status = "RANDOM"
      · rw [if_pos hst]
        unfold update_user_status
        apply liveOtpInv_setRow_of_keep hinv
        · exact fun r => rfl
        intro r hr hid
        rw [eq_of_mem_getRow hn hr hid hget]
        by_contra hne
        have := hinv u (getRow_mem hget) hne
        rw [hst] at this
        exact absurd this (by decide)
      · rw [if_neg hst]; exact hinv
  · intro uid s hinv
    cases hget : getRow s uid with
    | none => simp only [clean_otp, hget]; exact hinv
    | some u =>
      simp only [clean_otp, hget]
      by_cases hk : keepStatuses.contains u.status = true
      · rw [if_pos hk]; exact hinv
      · rw [if_neg hk]
        apply liveOtpInv_setRow_of_clear hinv
        exact fun r => rfl

theorem C5_liveotp_preservation_witness :
    liveOtpInv (find_random_partner 0 100
      [⟨100, none, "OPEN", "a", "", "", 120⟩, ⟨200, none, "OPEN", "b", "", "", 120⟩]).2 ∧
    liveOtpInv (check_user_status "1234" "111111" "11111" 100
      [⟨100, none, "OPEN", "a", "", "", 120⟩]).2 ∧
    liveOtpInv (verify_private_link "/92x" 100 [⟨100, none, "OPEN", "a", "", "", 120⟩]).2 ∧
    liveOtpInv (handle_forward_button 100 [⟨100, some "200", "RANDOM", "a", "", "", 120⟩]) ∧
    liveOtpInv (clean_otp 100 [⟨100, none, "PRIVATE", "a", "1234", "", 120⟩]) :=
  ⟨C5_liveotp_preservation.1 0 100
      [⟨100, none, "OPEN", "a", "", "", 120⟩, ⟨200, none, "OPEN", "b", "", "", 120⟩]
      (by decide) (by decide),
   C5_liveotp_preservation.2.1 "1234" "111111" "11111" 100
      [⟨100, none, "OPEN", "a", "", "", 120⟩] (by decide),
   C5_liveotp_preservation.2.2.1 "/92x" 100 [⟨100, none, "OPEN", "a", "", "", 120⟩] (by decide),
   C5_liveotp_preservation.2.2.2.1 100 [⟨100, some "200", "RANDOM", "a", "", "", 120⟩]
      (by decide) (by decide),
   C5_liveotp_preservation.2.2.2.2 100 [⟨100, none, "PRIVATE", "a", "1234", "", 120⟩] (by decide)⟩

/-! ## Claim C1: the symmetric pairing invariant -/

/-- A stored peer value is canonical when, if it coerces to a numeric id,
it is exactly the decimal rendering of that id (the engine only ever
stores `natStr`-rendered ids, `NULL`, or channel codes). -/
def canonicalPeer (p : Option String) : Bool :=
  match sqlNat? (p.getD "") with
  | some v => p == some (natStr v)
  | none => true

def canonicalPeers (s : State) : Prop := ∀ r ∈ s, canonicalPeer r.peer_id = true

instance : DecidablePred canonicalPeers := fun s => by unfold canonicalPeers; infer_instance

theorem canonicalPeers_spec {s : State} (h : canonicalPeers s) {r : Row} (hr : r ∈ s)
    {v : Nat} (hv : sqlNat? (r.peer_id.getD "") = some v) :
    r.peer_id = some (natStr v) := by
  have hc := h r hr
  unfold canonicalPeer at hc
  rw [hv] at hc
  simpa using hc

theorem bilateralRow_cases {r : Row} (h : bilateralRow r = true) :
    r.status = "RANDOM" ∨ r.status = "CONNECTED" ∨
      (r.status = "PRIVATE" ∧ truthy r.peer_id = true) := by
  unfold bilateralRow at h
  simp only [Bool.or_eq_true, beq_iff_eq, Bool.and_eq_true] at h
  tauto

theorem bilateralRow_to_status {r : Row} (h : bilateralRow r = true) :
    bilateralStatus r.status = true := by
  rcases bilateralRow_cases h with h1 | h1 | h1
  · simp [bilateralStatus, h1]
  · simp [bilateralStatus, h1]
  · simp [bilateralStatus, h1.1]

/-- Generic preservation principle: a pointwise, id-preserving rewrite of
the store keeps the symmetric pairing invariant provided every row is
either left alone, made non-bilateral, or written as half of a mutual
pair, and provided untouched bilateral pointers still have their partner
pointing back afterwards. -/
theorem symInv_map_preserve (s : State) (Φ : Row → Row)
    (hn : uidsNodup s) (hid : ∀ r, (Φ r).user_id = r.user_id)
    (hcase : ∀ r ∈ s, Φ r = r ∨ bilateralRow (Φ r) = false ∨
      (∃ w ∈ s, (Φ r).peer_id = some (natStr w.user_id) ∧
        (Φ w).peer_id = some (natStr r.user_id) ∧ bilateralRow (Φ w) = true))
    (hframe : ∀ ra ∈ s, Φ ra = ra → bilateralRow ra = true →
      ∀ rb ∈ s, ra.peer_id = some (natStr rb.user_id) →
        (Φ rb).peer_id = some (natStr ra.user_id) ∧ bilateralRow (Φ rb) = true) :
    symInv (s.map Φ) := by
  intro a hamem hbil b hbmem hpeer
  obtain ⟨ra, hras, hrae⟩ := List.mem_map.mp hamem
  obtain ⟨rb, hrbs, hrbe⟩ := List.mem_map.mp hbmem
  subst hrae hrbe
  rcases hcase ra hras with hident | hfalse | ⟨w, hws, hwp, hwback, hwbil⟩
  · rw [hident] at hbil hpeer ⊢
    rw [hid rb] at hpeer
    exact hframe ra hras hident hbil rb hrbs hpeer
  · rw [hfalse] at hbil
    exact absurd hbil (by decide)
  · rw [hwp] at hpeer
    have hweq : w = rb := by
      have hids : w.user_id = rb.user_id := by
        have := Option.some.injEq _ _ ▸ hpeer
        exact natStr_inj (by rw [this, hid rb])
      exact eq_of_mem_getRow hn hws hids (getRow_of_mem hn hrbs)
    rw [hid ra, ← hweq]
    exact ⟨hwback, hwbil⟩

/-- The pre-read peer id that the accept handler's cleanup step targets,
if any. -/
def cleanupTarget : Option Row → Option Nat
  | none => none
  | some row =>
    if bilateralStatus row.status && truthy row.peer_id then sqlNat? (row.peer_id.getD "")
    else none

theorem cleanup_old_peer_eq (d : Option Row) (s : State) :
    cleanup_old_peer d s = match cleanupTarget d with
      | some v => setRow s v (fun r => { r with status := "CLOSED", peer_id := none })
      | none => s := by
  cases d with
  | none => rfl
  | some row =>
    simp only [cleanup_old_peer, cleanupTarget]
    by_cases hc : (bilateralStatus row.status && truthy row.peer_id) = true
    · rw [if_pos hc, if_pos hc]
    · rw [if_neg hc, if_neg hc]

theorem cleanupTarget_some {row : Row} {v : Nat}
    (h : cleanupTarget (some row) = some v) :
    bilateralStatus row.status = true ∧ truthy row.peer_id = true ∧
      sqlNat? (row.peer_id.getD "") = some v := by
  simp only [cleanupTarget] at h
  by_cases hc : (bilateralStatus row.status && truthy row.peer_id) = true
  · rw [if_pos hc] at h
    simp only [Bool.and_eq_true] at hc
    exact ⟨hc.1, hc.2, h⟩
  · rw [if_neg hc] at h
    exact absurd h (by simp)

/-- Pointwise form of an optional cleanup: close the row iff its id is the
cleanup target. -/
def condClose (t : Option Nat) (r : Row) : Row :=
  match t with
  | some v => if r.user_id == v then { r with status := "CLOSED", peer_id := none } else r
  | none => r

/-- Pointwise form of `UPDATE users SET STATUS='CONNECTED', PEER_ID=partner
WHERE USER_ID = target`. -/
def connectWrite (target partner : Nat) (r : Row) : Row :=
  if r.user_id == target then
    { r with status := "CONNECTED", peer_id := some (natStr partner) }
  else r

theorem condClose_user_id (t : Option Nat) (r : Row) :
    (condClose t r).user_id = r.user_id := by
  cases t with
  | none => rfl
  | some v => simp only [condClose]; split <;> rfl

theorem connectWrite_user_id (t p : Nat) (r : Row) :
    (connectWrite t p r).user_id = r.user_id := by
  unfold connectWrite; split <;> rfl

theorem condClose_skip {t : Option Nat} {r : Row} (h : ∀ v, t = some v → r.user_id ≠ v) :
    condClose t r = r := by
  cases t with
  | none => rfl
  | some v => simp [condClose, h v rfl]

theorem condClose_fire {v : Nat} {r : Row} (hr : r.user_id = v) :
    condClose (some v) r = { r with status := "CLOSED", peer_id := none } := by
  simp [condClose, hr]

theorem condClose_keeps (t : Option Nat) (r : Row) :
    condClose t r = r ∨
      ((condClose t r).status = "CLOSED" ∧ (condClose t r).peer_id = none) := by
  cases t with
  | none => exact Or.inl rfl
  | some v =>
    simp only [condClose]
    split
    · exact Or.inr ⟨rfl, rfl⟩
    · exact Or.inl rfl

theorem connectWrite_skip {t p : Nat} {r : Row} (h : r.user_id ≠ t) :
    connectWrite t p r = r := by
  simp [connectWrite, h]

theorem connectWrite_fire {t p : Nat} {r : Row} (h : r.user_id = t) :
    connectWrite t p r
      = { r with status := "CONNECTED", peer_id := some (natStr p) } := by
  simp [connectWrite, h]

theorem bilateralRow_false_of_closed {r : Row} (h : r.status = "CLOSED") :
    bilateralRow r = false := by
  simp [bilateralRow, h]

theorem bilateralRow_of_parts {r : Row} (hst : bilateralStatus r.status = true)
    (hp : truthy r.peer_id = true) : bilateralRow r = true := by
  unfold bilateralRow
  unfold bilateralStatus at hst
  simp only [Bool.or_eq_true, Bool.and_eq_true] at hst ⊢
  tauto

/-- The accept handler as a single pointwise rewrite of the table. -/
theorem accept_eq_map (R Q : Nat) (s : State) :
    accept_an_connection R Q s = s.map (fun r =>
      connectWrite R Q (connectWrite Q R (condClose (cleanupTarget (getRow s Q))
        (condClose (cleanupTarget (getRow s R)) r)))) := by
  unfold accept_an_connection
  rw [cleanup_old_peer_eq (getRow s R), cleanup_old_peer_eq (getRow s Q)]
  cases cleanupTarget (getRow s R) <;> cases cleanupTarget (getRow s Q) <;>
    simp only [setRow, List.map_map, condClose, connectWrite] <;>
    rfl

theorem bilateralRow_of_connected {r : Row} (h : r.status = "CONNECTED") :
    bilateralRow r = true := by
  simp [bilateralRow, h]

/-- Core preservation argument for the accept handler, with the two
cleanup targets abstracted.  `htRs`/`htQs` say a present target is the
canonical rendering of that party's stored peer and that the party is
bilateral; `htRc`/`htQc` say the cleanup does fire whenever the party is
bilateral with a canonically rendered peer. -/
theorem symInv_accept_aux (R Q : Nat) (s : State) (tR tQ : Option Nat)
    (hn : uidsNodup s) (hsym : symInv s)
    (rR rQ : Row) (hRrow : getRow s R = some rR) (hQrow : getRow s Q = some rQ)
    (hRQ : R ≠ Q)
    (htRs : ∀ v, tR = some v → rR.peer_id = some (natStr v) ∧ bilateralRow rR = true)
    (htQs : ∀ v, tQ = some v → rQ.peer_id = some (natStr v) ∧ bilateralRow rQ = true)
    (htRc : ∀ v, rR.peer_id = some (natStr v) → bilateralRow rR = true → tR = some v)
    (htQc : ∀ v, rQ.peer_id = some (natStr v) → bilateralRow rQ = true → tQ = some v) :
    symInv (s.map (fun r => connectWrite R Q (connectWrite Q R
      (condClose tQ (condClose tR r))))) := by
  have hRid : rR.user_id = R := getRow_id hRrow
  have hQid : rQ.user_id = Q := getRow_id hQrow
  have hids : ∀ r : Row,
      (connectWrite R Q (connectWrite Q R (condClose tQ (condClose tR r)))).user_id
        = r.user_id := by
    intro r
    rw [connectWrite_user_id, connectWrite_user_id, condClose_user_id, condClose_user_id]
  have hvR : ∀ r : Row, r.user_id = R →
      connectWrite R Q (connectWrite Q R (condClose tQ (condClose tR r)))
        = { condClose tQ (condClose tR r) with
            status := "CONNECTED", peer_id := some (natStr Q) } := by
    intro r hr
    have hz : (condClose tQ (condClose tR r)).user_id = R := by
      rw [condClose_user_id, condClose_user_id, hr]
    rw [@connectWrite_skip Q R (condClose tQ (condClose tR r)) (by rw [hz]; exact hRQ),
      connectWrite_fire hz]
  have hvQ : ∀ r : Row, r.user_id = Q →
      connectWrite R Q (connectWrite Q R (condClose tQ (condClose tR r)))
        = { condClose tQ (condClose tR r) with
            status := "CONNECTED", peer_id := some (natStr R) } := by
    intro r hr
    have hz : (condClose tQ (condClose tR r)).user_id = Q := by
      rw [condClose_user_id, condClose_user_id, hr]
    rw [connectWrite_fire hz]
    exact connectWrite_skip (by
      show ({ condClose tQ (condClose tR r) with
        status := "CONNECTED", peer_id := some (natStr R) } : Row).user_id ≠ R
      have hz2 : ({ condClose tQ (condClose tR r) with
        status := "CONNECTED", peer_id := some (natStr R) } : Row).user_id = Q := hz
      rw [hz2]
      exact fun h => hRQ h.symm)
  have hvelse : ∀ r : Row, r.user_id ≠ R → r.user_id ≠ Q →
      connectWrite R Q (connectWrite Q R (condClose tQ (condClose tR r)))
        = condClose tQ (condClose tR r) := by
    intro r hr1 hr2
    have hz : (condClose tQ (condClose tR r)).user_id = r.user_id := by
      rw [condClose_user_id, condClose_user_id]
    rw [@connectWrite_skip Q R (condClose tQ (condClose tR r)) (by rw [hz]; exact hr2),
      @connectWrite_skip R Q (condClose tQ (condClose tR r)) (by rw [hz]; exact hr1)]
  apply symInv_map_preserve s _ hn hids
  · -- hcase
    intro r hr
    by_cases hrR2 : r.user_id = R
    · right; right
      refine ⟨rQ, getRow_mem hQrow, ?_, ?_, ?_⟩
      · rw [hvR r hrR2, hQid]
      · rw [hvQ rQ hQid, hrR2]
      · rw [hvQ rQ hQid]
        exact bilateralRow_of_connected rfl
    · by_cases hrQ2 : r.user_id = Q
      · right; right
        refine ⟨rR, getRow_mem hRrow, ?_, ?_, ?_⟩
        · rw [hvQ r hrQ2, hRid]
        · rw [hvR rR hRid, hrQ2]
        · rw [hvR rR hRid]
          exact bilateralRow_of_connected rfl
      · rcases condClose_keeps tQ (condClose tR r) with h2 | h2
        · rcases condClose_keeps tR r with h1 | h1
          · left
            rw [hvelse r hrR2 hrQ2, h2, h1]
          · right; left
            rw [hvelse r hrR2 hrQ2, h2]
            exact bilateralRow_false_of_closed h1.1
        · right; left
          rw [hvelse r hrR2 hrQ2]
          exact bilateralRow_false_of_closed h2.1
  · -- hframe
    intro ra hra hident habil rb hrb hpeer
    obtain ⟨hback, hbbil⟩ := hsym ra hra habil rb hrb hpeer
    by_cases hbR : rb.user_id = R
    · have hrbR : rb = rR := eq_of_mem_getRow hn hrb hbR hRrow
      by_cases haQ : ra.user_id = Q
      · exact ⟨by rw [hvR rb hbR, haQ],
          by rw [hvR rb hbR]; exact bilateralRow_of_connected rfl⟩
      · exfalso
        by_cases haR : ra.user_id = R
        · have h1 := congrArg Row.peer_id (hvR ra haR)
          rw [hident] at h1
          rw [hpeer] at h1
          have h2 : rb.user_id = Q := natStr_inj (Option.some.injEq _ _ ▸ h1)
          rw [hbR] at h2
          exact hRQ h2
        · have hRp : rR.peer_id = some (natStr ra.user_id) := by rw [← hrbR]; exact hback
          have hRbil : bilateralRow rR = true := by rw [← hrbR]; exact hbbil
          have htRv : tR = some ra.user_id := htRc ra.user_id hRp hRbil
          have h2 := hvelse ra haR haQ
          have hstat : (connectWrite R Q (connectWrite Q R
              (condClose tQ (condClose tR ra)))).status = "CLOSED" := by
            rw [h2]
            rcases condClose_keeps tQ (condClose tR ra) with h3 | h3
            · rw [h3, htRv, condClose_fire rfl]
            · exact h3.1
          rw [hident] at hstat
          have hf := bilateralRow_false_of_closed hstat
          rw [hf] at habil
          exact absurd habil (by decide)
    · by_cases hbQ : rb.user_id = Q
      · have hrbQ : rb = rQ := eq_of_mem_getRow hn hrb hbQ hQrow
        by_cases haR : ra.user_id = R
        · exact ⟨by rw [hvQ rb hbQ, haR],
            by rw [hvQ rb hbQ]; exact bilateralRow_of_connected rfl⟩
        · exfalso
          by_cases haQ : ra.user_id = Q
          · have h1 := congrArg Row.peer_id (hvQ ra haQ)
            rw [hident] at h1
            rw [hpeer] at h1
            have h2 : rb.user_id = R := natStr_inj (Option.some.injEq _ _ ▸ h1)
            rw [hbQ] at h2
            exact hRQ h2.symm
          · have hQp : rQ.peer_id = some (natStr ra.user_id) := by rw [← hrbQ]; exact hback
            have hQbil : bilateralRow rQ = true := by rw [← hrbQ]; exact hbbil
            have htQv : tQ = some ra.user_id := htQc ra.user_id hQp hQbil
            have h2 := hvelse ra haR haQ
            have hstat : (connectWrite R Q (connectWrite Q R
                (condClose tQ (condClose tR ra)))).status = "CLOSED" := by
              rw [h2]
              rcases condClose_keeps tR ra with h1 | h1
              · rw [h1, htQv, condClose_fire rfl]
              · rcases condClose_keeps tQ (condClose tR ra) with h3 | h3
                · rw [h3]; exact h1.1
                · exact h3.1
            rw [hident] at hstat
            have hf := bilateralRow_false_of_closed hstat
            rw [hf] at habil
            exact absurd habil (by decide)
      · by_cases hbtR : tR = some rb.user_id
        · exfalso
          obtain ⟨hRp, hRbil⟩ := htRs rb.user_id hbtR
          have hpre2 := hsym rR (getRow_mem hRrow) hRbil rb hrb hRp
          have hra2 : ra.user_id = R := by
            have h1 : some (natStr ra.user_id) = some (natStr rR.user_id) := by
              rw [← hback, hpre2.1]
            have h2 := natStr_inj (Option.some.injEq _ _ ▸ h1)
            rw [h2, hRid]
          have h1 := congrArg Row.peer_id (hvR ra hra2)
          rw [hident] at h1
          rw [hpeer] at h1
          have h2 : rb.user_id = Q := natStr_inj (Option.some.injEq _ _ ▸ h1)
          exact hbQ h2
        · by_cases hbtQ : tQ = some rb.user_id
          · exfalso
            obtain ⟨hQp, hQbil⟩ := htQs rb.user_id hbtQ
            have hpre2 := hsym rQ (getRow_mem hQrow) hQbil rb hrb hQp
            have hra2 : ra.user_id = Q := by
              have h1 : some (natStr ra.user_id) = some (natStr rQ.user_id) := by
                rw [← hback, hpre2.1]
              have h2 := natStr_inj (Option.some.injEq _ _ ▸ h1)
              rw [h2, hQid]
            have h1 := congrArg Row.peer_id (hvQ ra hra2)
            rw [hident] at h1
            rw [hpeer] at h1
            have h2 : rb.user_id = R := natStr_inj (Option.some.injEq _ _ ▸ h1)
            exact hbR h2
          · have hskip : connectWrite R Q (connectWrite Q R
                (condClose tQ (condClose tR rb))) = rb := by
              rw [hvelse rb hbR hbQ,
                @condClose_skip tR rb (fun v hv hh => hbtR (by rw [hv, hh])),
                @condClose_skip tQ rb (fun v hv hh => hbtQ (by rw [hv, hh]))]
            rw [hskip]
            exact ⟨hback, hbbil⟩

/-- The accept handler preserves the symmetric pairing invariant when ids
are unique, stored peers are canonical, both parties' rows exist and the
parties differ. -/
theorem symInv_accept (R Q : Nat) (s : State)
    (hn : uidsNodup s) (hsym : symInv s) (hcan : canonicalPeers s)
    (rR rQ : Row) (hRrow : getRow s R = some rR) (hQrow : getRow s Q = some rQ)
    (hRQ : R ≠ Q) :
    symInv (accept_an_connection R Q s) := by
  rw [accept_eq_map, hRrow, hQrow]
  apply symInv_accept_aux R Q s _ _ hn hsym rR rQ hRrow hQrow hRQ
  · intro v hv
    obtain ⟨hst, htr, hsql⟩ := cleanupTarget_some hv
    exact ⟨canonicalPeers_spec hcan (getRow_mem hRrow) hsql, bilateralRow_of_parts hst htr⟩
  · intro v hv
    obtain ⟨hst, htr, hsql⟩ := cleanupTarget_some hv
    exact ⟨canonicalPeers_spec hcan (getRow_mem hQrow) hsql, bilateralRow_of_parts hst htr⟩
  · intro v hp hbil
    show cleanupTarget (some rR) = some v
    simp only [cleanupTarget]
    rw [if_pos (by rw [bilateralRow_to_status hbil, hp, truthy_natStr v]; rfl), hp]
    exact sqlNat?_natStr v
  · intro v hp hbil
    show cleanupTarget (some rQ) = some v
    simp only [cleanupTarget]
    rw [if_pos (by rw [bilateralRow_to_status hbil, hp, truthy_natStr v]; rfl), hp]
    exact sqlNat?_natStr v

/-- Pointwise form of `update_user_status t "CLOSED"`. -/
def statusClose (t : Nat) (r : Row) : Row :=
  if r.user_id == t then { r with status := "CLOSED" } else r

/-- Pointwise form of `UPDATE users SET PEER_ID = NULL WHERE USER_ID = t`. -/
def peerClear (t : Nat) (r : Row) : Row :=
  if r.user_id == t then { r with peer_id := none } else r

theorem statusClose_user_id (t : Nat) (r : Row) : (statusClose t r).user_id = r.user_id := by
  unfold statusClose; split <;> rfl

theorem peerClear_user_id (t : Nat) (r : Row) : (peerClear t r).user_id = r.user_id := by
  unfold peerClear; split <;> rfl

theorem peerClear_status (t : Nat) (r : Row) : (peerClear t r).status = r.status := by
  unfold peerClear; split <;> rfl

theorem statusClose_fire {t : Nat} {r : Row} (h : r.user_id = t) :
    statusClose t r = { r with status := "CLOSED" } := by
  simp [statusClose, h]

theorem statusClose_skip {t : Nat} {r : Row} (h : r.user_id ≠ t) : statusClose t r = r := by
  simp [statusClose, h]

theorem peerClear_skip {t : Nat} {r : Row} (h : r.user_id ≠ t) : peerClear t r = r := by
  simp [peerClear, h]

theorem condClose_status (t : Option Nat) (r : Row) :
    (condClose t r).status = r.status ∨ (condClose t r).status = "CLOSED" := by
  rcases condClose_keeps t r with h | h
  · rw [h]; exact Or.inl rfl
  · exact Or.inr h.1

/-- Core preservation argument for the stop (disconnect) handler of a
bilateral user, with the peer's cleanup target abstracted. -/
theorem symInv_stop_aux (uid : Nat) (s : State) (t : Option Nat)
    (hn : uidsNodup s) (hsym : symInv s)
    (u : Row) (hget : getRow s uid = some u) (hubil : bilateralRow u = true)
    (hts : ∀ v, t = some v → u.peer_id = some (natStr v))
    (htc : ∀ v, u.peer_id = some (natStr v) → t = some v) :
    symInv (s.map (fun r => peerClear uid (condClose t (statusClose uid r)))) := by
  have huid : u.user_id = uid := getRow_id hget
  have hids : ∀ r : Row,
      (peerClear uid (condClose t (statusClose uid r))).user_id = r.user_id := by
    intro r
    rw [peerClear_user_id, condClose_user_id, statusClose_user_id]
  have hvuid : ∀ r : Row, r.user_id = uid →
      (peerClear uid (condClose t (statusClose uid r))).status = "CLOSED" := by
    intro r hr
    rw [peerClear_status]
    rcases condClose_status t (statusClose uid r) with h | h
    · rw [h, statusClose_fire hr]
    · exact h
  have hvelse : ∀ r : Row, r.user_id ≠ uid → (∀ v, t = some v → r.user_id ≠ v) →
      peerClear uid (condClose t (statusClose uid r)) = r := by
    intro r hr hskip
    rw [statusClose_skip hr, condClose_skip hskip, peerClear_skip hr]
  apply symInv_map_preserve s _ hn hids
  · intro r hr
    by_cases hru : r.user_id = uid
    · right; left
      exact bilateralRow_false_of_closed (hvuid r hru)
    · by_cases ht2 : t = some r.user_id
      · right; left
        apply bilateralRow_false_of_closed
        rw [peerClear_status, statusClose_skip hru, ht2, condClose_fire rfl]
      · left
        exact hvelse r hru (fun v hv hveq => ht2 (by rw [hv, hveq]))
  · intro ra hra hident habil rb hrb hpeer
    obtain ⟨hback, hbbil⟩ := hsym ra hra habil rb hrb hpeer
    by_cases hbu : rb.user_id = uid
    · exfalso
      have hrbu : rb = u := eq_of_mem_getRow hn hrb hbu hget
      have hup : u.peer_id = some (natStr ra.user_id) := by rw [← hrbu]; exact hback
      have htv : t = some ra.user_id := htc ra.user_id hup
      have hstat : (peerClear uid (condClose t (statusClose uid ra))).status = "CLOSED" := by
        by_cases hau : ra.user_id = uid
        · exact hvuid ra hau
        · rw [peerClear_status, statusClose_skip hau, htv, condClose_fire rfl]
      rw [hident] at hstat
      have hf := bilateralRow_false_of_closed hstat
      rw [hf] at habil
      exact absurd habil (by decide)
    · by_cases hbt : t = some rb.user_id
      · exfalso
        have hup : u.peer_id = some (natStr rb.user_id) := hts rb.user_id hbt
        have hpre2 := hsym u (getRow_mem hget) hubil rb hrb hup
        have hra2 : ra.user_id = uid := by
          have h1 : some (natStr ra.user_id) = some (natStr u.user_id) := by
            rw [← hback, hpre2.1]
          have h2 := natStr_inj (Option.some.injEq _ _ ▸ h1)
          rw [h2, huid]
        have hstat := hvuid ra hra2
        rw [hident] at hstat
        have hf := bilateralRow_false_of_closed hstat
        rw [hf] at habil
        exact absurd habil (by decide)
      · have hskip : peerClear uid (condClose t (statusClose uid rb)) = rb :=
          hvelse rb hbu (fun v hv hveq => hbt (by rw [hv, hveq]))
        rw [hskip]
        exact ⟨hback, hbbil⟩

/-- The stop (disconnect) handler preserves the symmetric pairing
invariant when the disconnecting user is bilaterally connected (unique
ids, canonical peers). -/
theorem symInv_stop (uid : Nat) (s : State)
    (hn : uidsNodup s) (hsym : symInv s) (hcan : canonicalPeers s)
    (u : Row) (hget : getRow s uid = some u) (hubil : bilateralRow u = true) :
    symInv (handle_stop_button uid s) := by
  have hnc : u.status ≠ "CLOSED" := by
    rcases bilateralRow_cases hubil with h | h | ⟨h, _⟩ <;> rw [h] <;> decide
  have hnb : u.status ≠ "BROADCASTER" := by
    rcases bilateralRow_cases hubil with h | h | ⟨h, _⟩ <;> rw [h] <;> decide
  simp only [handle_stop_button, hget]
  rw [if_neg hnc]
  by_cases hcond : (u.status ≠ "BROADCASTER" ∧ truthy u.peer_id = true)
  · rw [if_pos hcond]
    cases hsql : sqlNat? (u.peer_id.getD "") with
    | some v =>
      unfold setRow update_user_status setRow
      rw [List.map_map, List.map_map]
      have hcanu := canonicalPeers_spec hcan (getRow_mem hget) hsql
      exact symInv_stop_aux uid s (some v) hn hsym u hget hubil
        (fun w hw => by
          have : v = w := Option.some.injEq _ _ ▸ hw
          rw [← this]; exact hcanu)
        (fun w hw => by
          rw [hw] at hsql
          simp only [Option.getD_some] at hsql
          rw [sqlNat?_natStr] at hsql
          rw [hsql])
    | none =>
      unfold setRow update_user_status setRow
      rw [List.map_map]
      exact symInv_stop_aux uid s none hn hsym u hget hubil
        (fun w hw => by exact absurd hw (by simp))
        (fun w hw => by
          rw [hw] at hsql
          simp only [Option.getD_some] at hsql
          rw [sqlNat?_natStr] at hsql
          exact absurd hsql (by simp))
  · rw [if_neg hcond]
    unfold setRow update_user_status setRow
    rw [List.map_map]
    exact symInv_stop_aux uid s none hn hsym u hget hubil
      (fun w hw => by exact absurd hw (by simp))
      (fun w hw => by
        exfalso
        apply hcond
        refine ⟨hnb, ?_⟩
        rw [hw]
        exact truthy_natStr w)

/-- Pointwise form of the `RANDOM` pairing update of `find_random_partner`. -/
def randomWrite (target partner : Nat) (r : Row) : Row :=
  if r.user_id == target then
    { r with peer_id := some (natStr partner), status := "RANDOM" }
  else r

theorem randomWrite_user_id (t p : Nat) (r : Row) :
    (randomWrite t p r).user_id = r.user_id := by
  unfold randomWrite; split <;> rfl

theorem randomWrite_skip {t p : Nat} {r : Row} (h : r.user_id ≠ t) :
    randomWrite t p r = r := by
  simp [randomWrite, h]

theorem randomWrite_fire {t p : Nat} {r : Row} (h : r.user_id = t) :
    randomWrite t p r
      = { r with peer_id := some (natStr p), status := "RANDOM" } := by
  simp [randomWrite, h]

theorem bilateralRow_of_random {r : Row} (h : r.status = "RANDOM") :
    bilateralRow r = true := by
  simp [bilateralRow, h]

/-- The `RANDOM` pairing update preserves the invariant when both parties
are non-bilateral beforehand (the requester `OPEN`/`IDLE`, the partner
`OPEN`). -/
theorem symInv_pairRandom (uid p : Nat) (s : State)
    (hn : uidsNodup s) (hsym : symInv s)
    (u pr : Row) (hget : getRow s uid = some u) (hgp : getRow s p = some pr)
    (hune : bilateralRow u = false) (hprne : bilateralRow pr = false) (hpne : p ≠ uid) :
    symInv (s.map (fun r => randomWrite p uid (randomWrite uid p r))) := by
  have huid : u.user_id = uid := getRow_id hget
  have hpid : pr.user_id = p := getRow_id hgp
  have hids : ∀ r : Row, (randomWrite p uid (randomWrite uid p r)).user_id = r.user_id := by
    intro r
    rw [randomWrite_user_id, randomWrite_user_id]
  have hvu : ∀ r : Row, r.user_id = uid →
      randomWrite p uid (randomWrite uid p r)
        = { r with peer_id := some (natStr p), status := "RANDOM" } := by
    intro r hr
    rw [randomWrite_fire hr]
    exact randomWrite_skip (by
      show ({ r with peer_id := some (natStr p), status := "RANDOM" } : Row).user_id ≠ p
      have h2 : ({ r with peer_id := some (natStr p), status := "RANDOM" } : Row).user_id
          = uid := hr
      rw [h2]
      exact fun h => hpne h.symm)
  have hvp : ∀ r : Row, r.user_id = p →
      randomWrite p uid (randomWrite uid p r)
        = { r with peer_id := some (natStr uid), status := "RANDOM" } := by
    intro r hr
    rw [@randomWrite_skip uid p r (by rw [hr]; exact hpne), randomWrite_fire hr]
  have hvelse : ∀ r : Row, r.user_id ≠ uid → r.user_id ≠ p →
      randomWrite p uid (randomWrite uid p r) = r := by
    intro r h1 h2
    rw [randomWrite_skip h1, randomWrite_skip h2]
  apply symInv_map_preserve s _ hn hids
  · intro r hr
    by_cases hru : r.user_id = uid
    · right; right
      refine ⟨pr, getRow_mem hgp, ?_, ?_, ?_⟩
      · rw [hvu r hru, hpid]
      · rw [hvp pr hpid, hru]
      · rw [hvp pr hpid]
        exact bilateralRow_of_random rfl
    · by_cases hrp : r.user_id = p
      · right; right
        refine ⟨u, getRow_mem hget, ?_, ?_, ?_⟩
        · rw [hvp r hrp, huid]
        · rw [hvu u huid, hrp]
        · rw [hvu u huid]
          exact bilateralRow_of_random rfl
      · left
        exact hvelse r hru hrp
  · intro ra hra hident habil rb hrb hpeer
    obtain ⟨hback, hbbil⟩ := hsym ra hra habil rb hrb hpeer
    by_cases hbu : rb.user_id = uid
    · exfalso
      have hrbu : rb = u := eq_of_mem_getRow hn hrb hbu hget
      rw [hrbu, hune] at hbbil
      exact absurd hbbil (by decide)
    · by_cases hbp : rb.user_id = p
      · exfalso
        have hrbp : rb = pr := eq_of_mem_getRow hn hrb hbp hgp
        rw [hrbp, hprne] at hbbil
        exact absurd hbbil (by decide)
      · rw [hvelse rb hbu hbp]
        exact ⟨hback, hbbil⟩

/-- The random-match operation preserves the symmetric pairing invariant
(unique ids). -/
theorem symInv_find_random_partner (pick uid : Nat) (s : State)
    (hn : uidsNodup s) (hsym : symInv s) :
    symInv (find_random_partner pick uid s).2 := by
  cases hget : getRow s uid with
  | none => simp only [find_random_partner, hget]; exact hsym
  | some u =>
    simp only [find_random_partner, hget]
    by_cases hni : u.status ≠ "OPEN" ∧ u.status ≠ "IDLE"
    · rw [if_pos hni]; exact hsym
    · rw [if_neg hni]
      push_neg at hni
      have hune : bilateralRow u = false := by
        by_cases h : u.status = "OPEN"
        · simp [bilateralRow, h]
        · simp [bilateralRow, hni h]
      by_cases hcand : openCandidates uid s = []
      · rw [if_pos hcand]
        by_cases hopen : u.status ≠ "OPEN"
        · rw [if_pos hopen]
          show symInv (setRow s uid (fun r => { r with status := "OPEN" }))
          unfold setRow
          apply symInv_map_preserve s _ hn (fun r => by
            show (if r.user_id == uid then ({ r with status := "OPEN" } : Row) else r).user_id
              = r.user_id
            split <;> rfl)
          · intro r hr
            by_cases hru : (r.user_id == uid) = true
            · right; left
              rw [if_pos hru]
              simp [bilateralRow]
            · left
              rw [if_neg hru]
          · intro ra hra hident habil rb hrb hpeer
            obtain ⟨hback, hbbil⟩ := hsym ra hra habil rb hrb hpeer
            by_cases hbu : rb.user_id = uid
            · exfalso
              have hrbu : rb = u := eq_of_mem_getRow hn hrb hbu hget
              rw [hrbu, hune] at hbbil
              exact absurd hbbil (by decide)
            · rw [if_neg (by simpa using hbu)]
              exact ⟨hback, hbbil⟩
        · rw [if_neg hopen]; exact hsym
      · rw [if_neg hcand]
        have hidx : pick % (openCandidates uid s).length < (openCandidates uid s).length :=
          Nat.mod_lt _ (List.length_pos.mpr hcand)
        have hpmem : (openCandidates uid s).getD (pick % (openCandidates uid s).length) 0
            ∈ openCandidates uid s := by
          rw [List.getD_eq_getElem _ _ hidx]
          exact List.getElem_mem hidx
        obtain ⟨pr, hprf, hprid⟩ := List.mem_map.mp hpmem
        have hprs : pr ∈ s := (List.mem_filter.mp hprf).1
        have hprcond := (List.mem_filter.mp hprf).2
        simp only [Bool.and_eq_true, beq_iff_eq, bne_iff_ne, ne_eq] at hprcond
        have hprne2 : bilateralRow pr = false := by simp [bilateralRow, hprcond.1]
        have hgp : getRow s ((openCandidates uid s).getD
            (pick % (openCandidates uid s).length) 0) = some pr := by
          rw [← hprid]
          exact getRow_of_mem hn hprs
        show symInv (pairRandom uid
          ((openCandidates uid s).getD (pick % (openCandidates uid s).length) 0) s)
        unfold pairRandom setRow
        rw [List.map_map]
        have := symInv_pairRandom uid
          ((openCandidates uid s).getD (pick % (openCandidates uid s).length) 0) s
          hn hsym u pr hget hgp hune hprne2 (by rw [← hprid]; exact hprcond.2)
        exact this

/-- **C1 (as stated) is false**: from a symmetric two-user `RANDOM` pair,
pressing forward (resume) flips only the presser's status to `OPEN`,
leaving the partner `RANDOM` and still pointing at a now-non-bilateral
user. -/
theorem C1_counterexample :
    symInv [⟨1, some "2", "RANDOM", "a", "", "", 120⟩, ⟨2, some "1", "RANDOM", "b", "", "", 120⟩] ∧
    ¬ symInv (handle_forward_button 1
      [⟨1, some "2", "RANDOM", "a", "", "", 120⟩, ⟨2, some "1", "RANDOM", "b", "", "", 120⟩]) := by
  constructor
  · decide
  · decide

/-- **C1 (amended).** Over states with unique user ids and canonically
rendered peer references, the symmetric pairing invariant is preserved by
random match, private-link verification (which never mutates), the
anonymous-number accept (both parties present and distinct), and
disconnect by a bilaterally connected user.  It is *not* preserved by
forward/resume (counterexample above), nor by broadcast join or
private-link issue, which respectively overwrite and keep a stale
`peer_id` without symmetric cleanup. -/
theorem C1_symmetry_preservation :
    (∀ (pick uid : Nat) (s : State), uidsNodup s → symInv s →
      symInv (find_random_partner pick uid s).2) ∧
    (∀ (t : String) (uid : Nat) (s : State), symInv s →
      symInv (verify_private_link t uid s).2) ∧
    (∀ (R Q : Nat) (s : State) (rR rQ : Row), uidsNodup s → symInv s → canonicalPeers s →
      getRow s R = some rR → getRow s Q = some rQ → R ≠ Q →
      symInv (accept_an_connection R Q s)) ∧
    (∀ (uid : Nat) (s : State) (u : Row), uidsNodup s → symInv s → canonicalPeers s →
      getRow s uid = some u → bilateralRow u = true →
      symInv (handle_stop_button uid s)) := by
  refine ⟨?_, ?_, ?_, ?_⟩
  · intro pick uid s hn hsym
    exact symInv_find_random_partner pick uid s hn hsym
  · intro t uid s hsym
    rw [verify_private_link_snd]
    exact hsym
  · intro R Q s rR rQ hn hsym hcan hR hQ hRQ
    exact symInv_accept R Q s hn hsym hcan rR rQ hR hQ hRQ
  · intro uid s u hn hsym hcan hget hubil
    exact symInv_stop uid s hn hsym hcan u hget hubil

theorem C1_symmetry_preservation_witness :
    symInv (find_random_partner 0 100
      [⟨100, none, "OPEN", "a", "", "", 120⟩, ⟨200, none, "OPEN", "b", "", "", 120⟩]).2 ∧
    symInv (verify_private_link "/92x" 100 [⟨100, none, "OPEN", "a", "", "", 120⟩]).2 ∧
    symInv (accept_an_connection 1 3
      [⟨1, some "2", "CONNECTED", "a", "", "", 120⟩, ⟨2, some "1", "CONNECTED", "b", "", "", 120⟩,
       ⟨3, some "4", "CONNECTED", "c", "", "", 120⟩, ⟨4, some "3", "CONNECTED", "d", "", "", 120⟩]) ∧
    symInv (handle_stop_button 1
      [⟨1, some "2", "RANDOM", "a", "", "", 120⟩, ⟨2, some "1", "RANDOM", "b", "", "", 120⟩]) :=
  ⟨C1_symmetry_preservation.1 0 100
      [⟨100, none, "OPEN", "a", "", "", 120⟩, ⟨200, none, "OPEN", "b", "", "", 120⟩]
      (by decide) (by decide),
   C1_symmetry_preservation.2.1 "/92x" 100 [⟨100, none, "OPEN", "a", "", "", 120⟩] (by decide),
   C1_symmetry_preservation.2.2.1 1 3
      [⟨1, some "2", "CONNECTED", "a", "", "", 120⟩, ⟨2, some "1", "CONNECTED", "b", "", "", 120⟩,
       ⟨3, some "4", "CONNECTED", "c", "", "", 120⟩, ⟨4, some "3", "CONNECTED", "d", "", "", 120⟩]
      ⟨1, some "2", "CONNECTED", "a", "", "", 120⟩ ⟨3, some "4", "CONNECTED", "c", "", "", 120⟩
      (by decide) (by decide) (by decide) rfl rfl (by decide),
   C1_symmetry_preservation.2.2.2 1
      [⟨1, some "2", "RANDOM", "a", "", "", 120⟩, ⟨2, some "1", "RANDOM", "b", "", "", 120⟩]
      ⟨1, some "2", "RANDOM", "a", "", "", 120⟩
      (by decide) (by decide) (by decide) rfl (by decide)⟩

/-! ## Claim C3: `create_broadcasting.py` and the short-code derivation

`convert_to_fixed_code` hashes with `hashlib.md5`; MD5 (RFC 1321) is
implemented below over byte lists, with the two standard test vectors
proved as a sanity check. -/

def md5K : List Nat :=
  [3614090360, 3905402710, 606105819, 3250441966, 4118548399, 1200080426, 2821735955, 4249261313,
   1770035416, 2336552879, 4294925233, 2304563134, 1804603682, 4254626195, 2792965006, 1236535329,
   4129170786, 3225465664, 643717713, 3921069994, 3593408605, 38016083, 3634488961, 3889429448,
   568446438, 3275163606, 4107603335, 1163531501, 2850285829, 4243563512, 1735328473, 2368359562,
   4294588738, 2272392833, 1839030562, 4259657740, 2763975236, 1272893353, 4139469664, 3200236656,
   681279174, 3936430074, 3572445317, 76029189, 3654602809, 3873151461, 530742520, 3299628645,
   4096336452, 1126891415, 2878612391, 4237533241, 1700485571, 2399980690, 4293915773, 2240044497,
   1873313359, 4264355552, 2734768916, 1309151649, 4149444226, 3174756917, 718787259, 3951481745]

def md5S : List Nat :=
  [7, 12, 17, 22, 7, 12, 17, 22, 7, 12, 17, 22, 7, 12, 17, 22,
   5, 9, 14, 20, 5, 9, 14, 20, 5, 9, 14, 20, 5, 9, 14, 20,
   4, 11, 16, 23, 4, 11, 16, 23, 4, 11, 16, 23, 4, 11, 16, 23,
   6, 10, 15, 21, 6, 10, 15, 21, 6, 10, 15, 21, 6, 10, 15, 21]

def w32 (n : Nat) : Nat := n % 4294967296

/-- Bitwise complement within 32 bits. -/
def mnot (x : Nat) : Nat := 4294967295 - x

def rotl32 (x s : Nat) : Nat := w32 (x * 2 ^ s) + x / 2 ^ (32 - s)

/-- MD5 padding: `0x80`, zeros to 56 mod 64, then the bit length as eight
little-endian bytes. -/
def md5pad (msg : List Nat) : List Nat :=
  msg ++ 128 :: List.replicate ((119 - msg.length % 64) % 64) 0
    ++ (List.range 8).map (fun i => 8 * msg.length / 2 ^ (8 * i) % 256)

/-- Split into 64-byte chunks (fuel-based so the kernel can evaluate it). -/
def toChunksAux : Nat → List Nat → List (List Nat)
  | _, [] => []
  | 0, l => [l.take 64]
  | fuel + 1, l => l.take 64 :: toChunksAux fuel (l.drop 64)

/-- Little-endian 32-bit word `g` of a chunk. -/
def leWord (chunk : List Nat) (g : Nat) : Nat :=
  chunk.getD (4 * g) 0 + 256 * chunk.getD (4 * g + 1) 0
    + 65536 * chunk.getD (4 * g + 2) 0 + 16777216 * chunk.getD (4 * g + 3) 0

def md5round (chunk : List Nat) (st : Nat × Nat × Nat × Nat) (i : Nat) :
    Nat × Nat × Nat × Nat :=
  match st with
  | (a, b, c, d) =>
    let fg : Nat × Nat :=
      if i < 16 then ((b.land c).lor ((mnot b).land d), i)
      else if i < 32 then ((d.land b).lor ((mnot d).land c), (5 * i + 1) % 16)
      else if i < 48 then ((b.xor c).xor d, (3 * i + 5) % 16)
      else (c.xor (b.lor (mnot d)), (7 * i) % 16)
    (d, w32 (b + rotl32 (w32 (a + fg.1 + md5K.getD i 0 + leWord chunk fg.2)) (md5S.getD i 0)),
      b, c)

def md5chunk (st : Nat × Nat × Nat × Nat) (chunk : List Nat) : Nat × Nat × Nat × Nat :=
  match st, (List.range 64).foldl (md5round chunk) st with
  | (a0, b0, c0, d0), (a, b, c, d) => (w32 (a0 + a), w32 (b0 + b), w32 (c0 + c), w32 (d0 + d))

def hexChar (n : Nat) : Char := Char.ofNat (if n < 10 then 48 + n else 87 + n)

def wordHex (x : Nat) : List Char :=
  ((List.range 4).map (fun i =>
    [hexChar (x / 2 ^ (8 * i) / 16 % 16), hexChar (x / 2 ^ (8 * i) % 16)])).flatten

/-- Lowercase hex MD5 digest of a byte list (`hashlib.md5(.).hexdigest()`). -/
def md5hex (msg : List Nat) : String :=
  match (toChunksAux (md5pad msg).length (md5pad msg)).foldl md5chunk
      (1732584193, 4023233417, 2562383102, 271733878) with
  | (a, b, c, d) => String.mk (wordHex a ++ wordHex b ++ wordHex c ++ wordHex d)

set_option maxRecDepth 1000000

theorem md5hex_rfc_empty : md5hex [] = "d41d8cd98f00b204e9800998ecf8427e" := by decide

theorem md5hex_rfc_abc : md5hex [97, 98, 99] = "900150983cd24fb0d6963f7d28e17f72" := by decide

/-- UTF-8 bytes of a character (`str.encode()`). -/
def utf8Bytes (c : Char) : List Nat :=
  let n := c.toNat
  if n < 128 then [n]
  else if n < 2048 then [192 + n / 64, 128 + n % 64]
  else if n < 65536 then [224 + n / 4096, 128 + n / 64 % 64, 128 + n % 64]
  else [240 + n / 262144, 128 + n / 4096 % 64, 128 + n / 64 % 64, 128 + n % 64]

def strBytes (s : String) : List Nat :=
  s.data.foldr (fun c acc => utf8Bytes c ++ acc) []

/-- `create_broadcasting_channel_id(user_id, anony_name)` with the three
random alphanumeric pads passed explicitly (lengths 2, 3, 4 in the
source). -/
def create_broadcasting_channel_id (uid : Nat) (anony_name r1 r2 r3 : String) : String :=
  "/BCST" ++ r1 ++ natStr uid ++ r2 ++ anony_name ++ r3

/-- The `re.search(r'/BCST:.{5}(\d+)', ...)` step: leftmost position with
the literal `/BCST:`, five arbitrary characters, then a maximal non-empty
digit run.  Generated ids contain no `:` so this never matches them. -/
def bcstScan : List Char → Option String
  | [] => none
  | c :: rest =>
    if (c :: rest).take 6 = ['/', 'B', 'C', 'S', 'T', ':']
        ∧ (((c :: rest).drop 11).headD 'x').isDigit = true
        ∧ (c :: rest).drop 11 ≠ [] then
      some (String.mk (((c :: rest).drop 11).takeWhile (fun ch => ch.isDigit)))
    else bcstScan rest

/-- `extract_broadcaster_id`: regex first, then the fallback that skips 11
characters and takes the first digit run. -/
def extract_broadcaster_id (channel_id : String) : Option String :=
  if channel_id.data.take 5 = ['/', 'B', 'C', 'S', 'T'] then
    match bcstScan channel_id.data with
    | some g => some g
    | none =>
      if 11 < channel_id.data.length then
        if ((channel_id.data.drop 11).dropWhile (fun c => !c.isDigit)).takeWhile
            (fun c => c.isDigit) = [] then none
        else some (String.mk (((channel_id.data.drop 11).dropWhile
            (fun c => !c.isDigit)).takeWhile (fun c => c.isDigit)))
      else none
  else none

/-- The hash input chosen by `convert_to_fixed_code`: the extracted
broadcaster id when present and non-empty, else the whole channel id. -/
def hashInput (channel_id : String) : String :=
  match extract_broadcaster_id channel_id with
  | none => channel_id
  | some b => if b = "" then channel_id else b

/-- Remap of non-alphanumeric digest characters (dead for hex digests, but
present in the source). -/
def remapChar (c : Char) : Char :=
  if !c.isAlphanum then Char.ofNat (97 + c.toNat % 26) else c

/-- `convert_to_fixed_code`: first 6 characters of the MD5 hex digest of
the hash input, remapped to alphanumerics. -/
def convert_to_fixed_code (channel_id : String) : String :=
  String.mk (((md5hex (strBytes (hashInput channel_id))).data.take 6).map remapChar)

/-- **C3 (as stated) is false**: two channel ids for user `123456789` and
name `Peter` differing only in the middle random pad (`ABC` vs `1BC`) get
different short codes, because the fallback extraction skips the first
four digits of the user id and then greedily absorbs any digits that the
random pad happens to start with (`56789` vs `567891`). -/
theorem C3_counterexample :
    convert_to_fixed_code (create_broadcasting_channel_id 123456789 "Peter" "AA" "ABC" "AAAA")
      ≠ convert_to_fixed_code
          (create_broadcasting_channel_id 123456789 "Peter" "AA" "1BC" "AAAA") := by
  decide

/-- **C3 (amended).** The short code is a pure function of the *extracted*
broadcaster id — which itself can depend on the random padding: whenever
two long-form channel ids yield the same non-empty extraction, they map to
the same 6-character code. -/
theorem C3_code_from_extraction (id1 id2 b : String) (hb : b ≠ "")
    (h1 : extract_broadcaster_id id1 = some b)
    (h2 : extract_broadcaster_id id2 = some b) :
    convert_to_fixed_code id1 = convert_to_fixed_code id2 := by
  unfold convert_to_fixed_code
  have hh : hashInput id1 = hashInput id2 := by
    simp only [hashInput, h1, h2, if_neg hb]
  rw [hh]

theorem C3_code_from_extraction_witness :
    convert_to_fixed_code (create_broadcasting_channel_id 123456789 "Peter" "AA" "ABC" "AAAA")
      = convert_to_fixed_code
          (create_broadcasting_channel_id 123456789 "Peter" "AA" "XYZ" "ZZZZ") :=
  C3_code_from_extraction _ _ "56789" (by decide) (by decide) (by decide)

end Anony
